import Mathlib

/-!
Shallow embedding of the knowledge-graph-mcp core: the typed graph domain
model (`src/models/Graph.ts`), the in-memory graph store
(`KnowledgeGraphService`), and the force-directed layout / SVG label logic
(`src/services/SvgService.ts`).  TypeScript `Date` values are modelled as
`Nat` timestamps supplied by the caller; `randomUUID` results are modelled
as explicit id arguments; file-system effects are out of scope (they do not
touch the in-memory registry).  Each thrown `KnowledgeGraphError` is mapped
to the error kind of the spec's taxonomy that its message denotes.
-/

namespace KG

/-- Graph lifecycle status (`GraphStatus` in Graph.ts). -/
inductive GraphStatus
  | draft
  | published
  | archived
deriving DecidableEq, Repr

/-- Graph kind (`GraphType` in Graph.ts). -/
inductive GraphType
  | topology
  | timeline
  | changelog
  | requirement
  | knowledge_base
  | ontology
deriving DecidableEq, Repr, Fintype

/-- Node kind (`NodeType` in Graph.ts). -/
inductive NodeType
  | component
  | module
  | service
  | data
  | api
  | concept
  | resource
  | event
  | change
  | requirement
  | feature
  | iteration
  | decision
  | person
deriving DecidableEq, Repr, Fintype

/-- Edge kind (`EdgeType` in Graph.ts).  `extends` is a Lean keyword, so
that constructor is named `extends_`. -/
inductive EdgeType
  | depends_on
  | imports
  | extends_
  | implements
  | calls
  | references
  | contains
  | associated_with
  | precedes
  | transforms_to
  | leads_to
  | implements_req
  | created_by
  | modified_by
  | part_of
deriving DecidableEq, Repr, Fintype

/-- Free-form metadata map (`Record<string, any>`), kept opaque as
string-keyed string values; its content is never inspected by the core. -/
abbrev MetaMap := List (String × String)

/-- `Node` interface of Graph.ts. -/
structure Node where
  id : String
  type : NodeType
  name : String
  description : Option String
  filePath : Option String
  metadata : Option MetaMap
  createdAt : Nat
  updatedAt : Nat
  resources : Option (List String)
deriving DecidableEq

/-- `Edge` interface of Graph.ts. -/
structure Edge where
  id : String
  type : EdgeType
  source : String
  target : String
  label : Option String
  weight : Option ℚ
  metadata : Option MetaMap
  createdAt : Nat
  updatedAt : Nat
deriving DecidableEq

/-- `Resource` interface of Graph.ts (resource `type` is a raw string in the
source: "svg", "markdown", ...). -/
structure Resource where
  id : String
  name : String
  type : String
  path : String
  title : Option String
  description : Option String
  createdAt : Nat
  updatedAt : Nat
deriving DecidableEq

/-- `Graph` interface of Graph.ts. -/
structure Graph where
  id : String
  name : String
  description : Option String
  type : GraphType
  status : GraphStatus
  rootNodeId : Option String
  nodes : List Node
  edges : List Edge
  resources : List Resource
  metadata : Option MetaMap
  createdAt : Nat
  updatedAt : Nat
  publishedAt : Option Nat
  archivedAt : Option Nat
deriving DecidableEq

/-- Service configuration bits that influence the in-memory state:
whether SVG auto-generation is on and whether a `FileService` is
configured (`config.generateSvg`, `this.fileService`). -/
structure ServiceConfig where
  generateSvg : Bool
  hasFileService : Bool
deriving DecidableEq

/-- Error kinds of the spec's taxonomy (§7); each `KnowledgeGraphError`
throw site in the source is mapped to the kind its message denotes. -/
inductive ErrKind
  | notFound
  | typeMismatch
  | duplicateName
  | duplicateRelationship
  | immutableState
  | invalidInput
  | persistenceFailure
deriving DecidableEq, Repr

/-- The in-memory registry `Map<string, Graph>`, as an insertion-ordered
association list with unique keys. -/
abbrev Store := List (String × Graph)

/-- `Map.set`: overwrite in place when the key exists, append otherwise. -/
def mapSet (s : Store) (k : String) (v : Graph) : Store :=
  if s.any (fun p => p.1 = k) then
    s.map (fun p => if p.1 = k then (k, v) else p)
  else
    s ++ [(k, v)]

/-- `Map.get`. -/
def mapGet (s : Store) (k : String) : Option Graph :=
  (s.find? (fun p => p.1 = k)).map (fun p => p.2)

/-- `Map.delete`. -/
def mapDel (s : Store) (k : String) : Store :=
  s.filter (fun p => p.1 ≠ k)

/-- Replace the first list element satisfying `p` by its image under `f`
(the `findIndex` + in-place field mutation pattern of the source). -/
def updateFirst (p : α → Bool) (f : α → α) : List α → List α
  | [] => []
  | x :: xs => if p x then f x :: xs else x :: updateFirst p f xs

/-- Remove the first list element satisfying `p`
(the `findIndex` + `splice(idx, 1)` pattern of the source). -/
def eraseFirst (p : α → Bool) : List α → List α
  | [] => []
  | x :: xs => if p x then xs else x :: eraseFirst p xs

/-- `GraphModel.createNode`. -/
def createNode (newId : String) (type : NodeType) (name : String)
    (description filePath : Option String) (metadata : Option MetaMap)
    (now : Nat) : Node :=
  { id := newId, type := type, name := name, description := description
    filePath := filePath, metadata := metadata
    createdAt := now, updatedAt := now, resources := some [] }

/-- `GraphModel.createEdge`. -/
def createEdge (newId : String) (type : EdgeType) (source target : String)
    (label : Option String) (weight : Option ℚ) (metadata : Option MetaMap)
    (now : Nat) : Edge :=
  { id := newId, type := type, source := source, target := target
    label := label, weight := weight, metadata := metadata
    createdAt := now, updatedAt := now }

/-- `GraphModel.createResource`. -/
def createResource (newId : String) (name type path : String)
    (description : Option String) (now : Nat) : Resource :=
  { id := newId, name := name, type := type, path := path, title := none
    description := description, createdAt := now, updatedAt := now }

/-- The string names of the graph kinds (`Object.values(GraphType)`). -/
def graphTypeOfString (s : String) : Option GraphType :=
  if s = "topology" then some .topology
  else if s = "timeline" then some .timeline
  else if s = "changelog" then some .changelog
  else if s = "requirement" then some .requirement
  else if s = "knowledge_base" then some .knowledge_base
  else if s = "ontology" then some .ontology
  else none

/-- `KnowledgeGraphService.validateNodeTypeForGraphType`: per-graph-kind
node-kind allow-lists, transcribed switch case by switch case. -/
def validateNodeTypeForGraphType (graphType : GraphType)
    (nodeType : NodeType) : Except ErrKind Unit :=
  match graphType with
  | .topology =>
      let topologyAllowedTypes : List NodeType :=
        [.component, .module, .service, .data, .api, .resource, .concept]
      if topologyAllowedTypes.contains nodeType then .ok ()
      else .error .typeMismatch
  | .timeline =>
      let timelineAllowedTypes : List NodeType :=
        [.event, .decision, .iteration, .person]
      if timelineAllowedTypes.contains nodeType then .ok ()
      else .error .typeMismatch
  | .changelog =>
      let changelogAllowedTypes : List NodeType :=
        [.change, .feature, .component, .iteration, .person]
      if changelogAllowedTypes.contains nodeType then .ok ()
      else .error .typeMismatch
  | .requirement =>
      let requirementAllowedTypes : List NodeType :=
        [.requirement, .feature, .component, .iteration, .person, .decision]
      if requirementAllowedTypes.contains nodeType then .ok ()
      else .error .typeMismatch
  | .knowledge_base => .ok ()
  | .ontology =>
      let ontologyAllowedTypes : List NodeType :=
        [.concept, .resource, .data]
      if ontologyAllowedTypes.contains nodeType then .ok ()
      else .error .typeMismatch

/-- `KnowledgeGraphService.validateEdgeTypeForGraphType`: per-graph-kind
edge-kind allow-lists, transcribed switch case by switch case. -/
def validateEdgeTypeForGraphType (graphType : GraphType)
    (edgeType : EdgeType) : Except ErrKind Unit :=
  match graphType with
  | .topology =>
      let topologyAllowedTypes : List EdgeType :=
        [.depends_on, .imports, .extends_, .implements, .calls,
         .references, .contains, .associated_with]
      if topologyAllowedTypes.contains edgeType then .ok ()
      else .error .typeMismatch
  | .timeline =>
      let timelineAllowedTypes : List EdgeType :=
        [.precedes, .leads_to, .created_by, .modified_by]
      if timelineAllowedTypes.contains edgeType then .ok ()
      else .error .typeMismatch
  | .changelog =>
      let changelogAllowedTypes : List EdgeType :=
        [.precedes, .transforms_to, .created_by, .modified_by, .part_of]
      if changelogAllowedTypes.contains edgeType then .ok ()
      else .error .typeMismatch
  | .requirement =>
      let requirementAllowedTypes : List EdgeType :=
        [.implements_req, .depends_on, .part_of, .created_by, .modified_by]
      if requirementAllowedTypes.contains edgeType then .ok ()
      else .error .typeMismatch
  | .knowledge_base => .ok ()
  | .ontology =>
      let ontologyAllowedTypes : List EdgeType :=
        [.extends_, .contains, .part_of, .associated_with]
      if ontologyAllowedTypes.contains edgeType then .ok ()
      else .error .typeMismatch

/-- `KnowledgeGraphService.createGraph` (including the re-validation in
`GraphModel.create`): rejects an empty name (`!name` is truthy-false) with
`InvalidInput`, rejects a provided kind outside `GraphType` with
`TypeMismatch`, otherwise builds a fresh draft graph (default kind
`topology`) and `Map.set`s it into the registry.  The raw requested kind is
a string, as at the tool boundary. -/
def createGraph (now : Nat) (newId : String) (s : Store) (name : String)
    (type : Option String) (description : Option String) :
    Except ErrKind Graph × Store :=
  if name = "" then (.error .invalidInput, s)
  else
    match type with
    | some t =>
        match graphTypeOfString t with
        | none => (.error .typeMismatch, s)
        | some gt =>
            let g : Graph :=
              { id := newId, name := name, description := description
                type := gt, status := .draft, rootNodeId := none
                nodes := [], edges := [], resources := [], metadata := none
                createdAt := now, updatedAt := now
                publishedAt := none, archivedAt := none }
            (.ok g, mapSet s g.id g)
    | none =>
        let g : Graph :=
          { id := newId, name := name, description := description
            type := .topology, status := .draft, rootNodeId := none
            nodes := [], edges := [], resources := [], metadata := none
            createdAt := now, updatedAt := now
            publishedAt := none, archivedAt := none }
        (.ok g, mapSet s g.id g)

/-- `KnowledgeGraphService.updateGraph`. -/
def updateGraph (now : Nat) (s : Store) (id : String)
    (uName uDesc : Option String) : Except ErrKind Graph × Store :=
  match mapGet s id with
  | none => (.error .notFound, s)
  | some g =>
      if g.status = .archived then (.error .immutableState, s)
      else
        let g1 := match uName with
          | some n => if n = "" then g else { g with name := n }
          | none => g
        let g2 := match uDesc with
          | some d => { g1 with description := some d }
          | none => g1
        let g3 := { g2 with updatedAt := now }
        (.ok g3, mapSet s id g3)

/-- `KnowledgeGraphService.publishGraph`: rejects archived graphs, sets
status `published` and both timestamps, and (when SVG generation and the
file service are configured) appends a freshly created SVG resource.  The
generated file name and the SVG content are external I/O, modelled as the
`svgPath` argument. -/
def publishGraph (cfg : ServiceConfig) (now : Nat) (newResId svgPath : String)
    (s : Store) (id : String) : Except ErrKind Graph × Store :=
  match mapGet s id with
  | none => (.error .notFound, s)
  | some g =>
      if g.status = .archived then (.error .immutableState, s)
      else
        let g1 := { g with status := .published, publishedAt := some now
                           updatedAt := now }
        let g2 :=
          if cfg.generateSvg && cfg.hasFileService then
            let resource := createResource newResId
              (g1.name ++ " 知识图谱") "svg" svgPath
              (some "自动生成的知识图谱可视化图") now
            { g1 with resources := g1.resources ++ [resource] }
          else g1
        (.ok g2, mapSet s id g2)

/-- `KnowledgeGraphService.archiveGraph`: fails only when the graph is
missing; allowed from any status. -/
def archiveGraph (now : Nat) (s : Store) (id : String) :
    Except ErrKind Graph × Store :=
  match mapGet s id with
  | none => (.error .notFound, s)
  | some g =>
      let g1 := { g with status := .archived, archivedAt := some now
                         updatedAt := now }
      (.ok g1, mapSet s id g1)

/-- `KnowledgeGraphService.deleteGraph` (artifact file deletion is external
I/O with no registry effect). -/
def deleteGraph (s : Store) (id : String) : Except ErrKind Unit × Store :=
  match mapGet s id with
  | none => (.error .notFound, s)
  | some _ => (.ok (), mapDel s id)

/-- `KnowledgeGraphService.addNode`: note the source validates the node
kind against the graph kind before the archived-status check. -/
def addNode (now : Nat) (newId : String) (s : Store) (graphId : String)
    (nodeType : NodeType) (name : String)
    (description filePath : Option String) (metadata : Option MetaMap) :
    Except ErrKind Node × Store :=
  match mapGet s graphId with
  | none => (.error .notFound, s)
  | some g =>
      match validateNodeTypeForGraphType g.type nodeType with
      | .error e => (.error e, s)
      | .ok _ =>
          if g.status = .archived then (.error .immutableState, s)
          else if g.nodes.any (fun n => n.name = name) then
            (.error .duplicateName, s)
          else
            let node := createNode newId nodeType name description
              filePath metadata now
            let g1 := { g with nodes := g.nodes ++ [node], updatedAt := now }
            (.ok node, mapSet s graphId g1)

/-- The field updates of `KnowledgeGraphService.updateNode` applied to the
found node. -/
def applyNodeUpdates (now : Nat) (uName uDesc uFile : Option String)
    (uMeta : Option MetaMap) (n : Node) : Node :=
  let n1 := match uName with
    | some nm => if nm = "" ∨ nm = n.name then n else { n with name := nm }
    | none => n
  let n2 := match uDesc with
    | some d => { n1 with description := some d }
    | none => n1
  let n3 := match uFile with
    | some f => { n2 with filePath := some f }
    | none => n2
  let n4 := match uMeta with
    | some m => { n3 with metadata := some m }
    | none => n3
  { n4 with updatedAt := now }

/-- `KnowledgeGraphService.updateNode`: the duplicate-name check runs only
when a nonempty new name differing from the found node's current name is
supplied. -/
def updateNode (now : Nat) (s : Store) (graphId nodeId : String)
    (uName uDesc uFile : Option String) (uMeta : Option MetaMap) :
    Except ErrKind Node × Store :=
  match mapGet s graphId with
  | none => (.error .notFound, s)
  | some g =>
      if g.status = .archived then (.error .immutableState, s)
      else
        match g.nodes.find? (fun n => n.id = nodeId) with
        | none => (.error .notFound, s)
        | some node =>
            let nameConflict : Bool := match uName with
              | some nm => nm != "" && nm != node.name &&
                  g.nodes.any (fun n => n.name = nm ∧ n.id ≠ nodeId)
              | none => false
            if nameConflict then (.error .duplicateName, s)
            else
              let nodes1 := updateFirst (fun n => n.id = nodeId)
                (applyNodeUpdates now uName uDesc uFile uMeta) g.nodes
              let g1 := { g with nodes := nodes1, updatedAt := now }
              (.ok (applyNodeUpdates now uName uDesc uFile uMeta node),
               mapSet s graphId g1)

/-- `KnowledgeGraphService.deleteNode`: archived check, node existence,
root-node protection, then cascade-filter the edges touching the node and
splice the node out. -/
def deleteNode (now : Nat) (s : Store) (graphId nodeId : String) :
    Except ErrKind Unit × Store :=
  match mapGet s graphId with
  | none => (.error .notFound, s)
  | some g =>
      if g.status = .archived then (.error .immutableState, s)
      else if ¬ g.nodes.any (fun n => n.id = nodeId) then
        (.error .notFound, s)
      else if g.rootNodeId = some nodeId then (.error .immutableState, s)
      else
        let edges1 := g.edges.filter
          (fun e => e.source ≠ nodeId ∧ e.target ≠ nodeId)
        let nodes1 := eraseFirst (fun n => n.id = nodeId) g.nodes
        let g1 := { g with nodes := nodes1, edges := edges1
                           updatedAt := now }
        (.ok (), mapSet s graphId g1)

/-- `KnowledgeGraphService.addEdge`: kind validation first (before the
archived check), then endpoint existence, then (source, target, kind)
triple uniqueness. -/
def addEdge (now : Nat) (newId : String) (s : Store) (graphId : String)
    (edgeType : EdgeType) (source target : String) (label : Option String)
    (weight : Option ℚ) (metadata : Option MetaMap) :
    Except ErrKind Edge × Store :=
  match mapGet s graphId with
  | none => (.error .notFound, s)
  | some g =>
      match validateEdgeTypeForGraphType g.type edgeType with
      | .error e => (.error e, s)
      | .ok _ =>
          if g.status = .archived then (.error .immutableState, s)
          else if ¬ g.nodes.any (fun n => n.id = source) then
            (.error .notFound, s)
          else if ¬ g.nodes.any (fun n => n.id = target) then
            (.error .notFound, s)
          else if g.edges.any (fun e =>
              e.source = source ∧ e.target = target ∧ e.type = edgeType) then
            (.error .duplicateRelationship, s)
          else
            let edge := createEdge newId edgeType source target label
              weight metadata now
            let g1 := { g with edges := g.edges ++ [edge], updatedAt := now }
            (.ok edge, mapSet s graphId g1)

/-- The field updates of `KnowledgeGraphService.updateEdge` applied to the
found edge. -/
def applyEdgeUpdates (now : Nat) (uLabel : Option String)
    (uWeight : Option ℚ) (uMeta : Option MetaMap) (e : Edge) : Edge :=
  let e1 := match uLabel with
    | some l => { e with label := some l }
    | none => e
  let e2 := match uWeight with
    | some w => { e1 with weight := some w }
    | none => e1
  let e3 := match uMeta with
    | some m => { e2 with metadata := some m }
    | none => e2
  { e3 with updatedAt := now }

/-- `KnowledgeGraphService.updateEdge`. -/
def updateEdge (now : Nat) (s : Store) (graphId edgeId : String)
    (uLabel : Option String) (uWeight : Option ℚ) (uMeta : Option MetaMap) :
    Except ErrKind Edge × Store :=
  match mapGet s graphId with
  | none => (.error .notFound, s)
  | some g =>
      if g.status = .archived then (.error .immutableState, s)
      else
        match g.edges.find? (fun e => e.id = edgeId) with
        | none => (.error .notFound, s)
        | some edge =>
            let edges1 := updateFirst (fun e => e.id = edgeId)
              (applyEdgeUpdates now uLabel uWeight uMeta) g.edges
            let g1 := { g with edges := edges1, updatedAt := now }
            (.ok (applyEdgeUpdates now uLabel uWeight uMeta edge),
             mapSet s graphId g1)

/-- `KnowledgeGraphService.deleteEdge`. -/
def deleteEdge (now : Nat) (s : Store) (graphId edgeId : String) :
    Except ErrKind Unit × Store :=
  match mapGet s graphId with
  | none => (.error .notFound, s)
  | some g =>
      if g.status = .archived then (.error .immutableState, s)
      else if ¬ g.edges.any (fun e => e.id = edgeId) then
        (.error .notFound, s)
      else
        let edges1 := eraseFirst (fun e => e.id = edgeId) g.edges
        let g1 := { g with edges := edges1, updatedAt := now }
        (.ok (), mapSet s graphId g1)

/-- `KnowledgeGraphService.addResource`: archived check, name-uniqueness
check, then a file write (requires the file service) and the push of the
resource record (path `resources/<id>.<type>`). -/
def addResource (cfg : ServiceConfig) (now : Nat) (newId : String)
    (s : Store) (graphId name rtype : String)
    (description : Option String) : Except ErrKind Resource × Store :=
  match mapGet s graphId with
  | none => (.error .notFound, s)
  | some g =>
      if g.status = .archived then (.error .immutableState, s)
      else if g.resources.any (fun r => r.name = name) then
        (.error .duplicateName, s)
      else if ¬ cfg.hasFileService then (.error .persistenceFailure, s)
      else
        let resource0 := createResource newId name rtype "" description now
        let resource := { resource0 with
          path := "resources/" ++ newId ++ "." ++ rtype }
        let g1 := { g with resources := g.resources ++ [resource]
                           updatedAt := now }
        (.ok resource, mapSet s graphId g1)

/-- `KnowledgeGraphService.linkResourceToNode`. -/
def linkResourceToNode (now : Nat) (s : Store)
    (graphId nodeId resourceId : String) : Except ErrKind Node × Store :=
  match mapGet s graphId with
  | none => (.error .notFound, s)
  | some g =>
      if g.status = .archived then (.error .immutableState, s)
      else
        match g.nodes.find? (fun n => n.id = nodeId) with
        | none => (.error .notFound, s)
        | some node =>
            if ¬ g.resources.any (fun r => r.id = resourceId) then
              (.error .notFound, s)
            else if (node.resources.getD []).contains resourceId then
              (.error .duplicateRelationship, s)
            else
              let f := fun (n : Node) =>
                { n with
                    resources := some ((n.resources.getD []) ++ [resourceId])
                    updatedAt := now }
              let nodes1 := updateFirst (fun n => n.id = nodeId) f g.nodes
              let g1 := { g with nodes := nodes1, updatedAt := now }
              (.ok (f node), mapSet s graphId g1)

/-- `KnowledgeGraphService.unlinkResourceFromNode`. -/
def unlinkResourceFromNode (now : Nat) (s : Store)
    (graphId nodeId resourceId : String) : Except ErrKind Unit × Store :=
  match mapGet s graphId with
  | none => (.error .notFound, s)
  | some g =>
      if g.status = .archived then (.error .immutableState, s)
      else
        match g.nodes.find? (fun n => n.id = nodeId) with
        | none => (.error .notFound, s)
        | some node =>
            if ¬ (node.resources.getD []).contains resourceId then
              (.error .notFound, s)
            else
              let f := fun (n : Node) =>
                { n with
                    resources := some ((n.resources.getD []).filter
                      (fun i => i ≠ resourceId))
                    updatedAt := now }
              let nodes1 := updateFirst (fun n => n.id = nodeId) f g.nodes
              let g1 := { g with nodes := nodes1, updatedAt := now }
              (.ok (), mapSet s graphId g1)

/-- The field updates of `KnowledgeGraphService.updateResource` applied to
the found resource. -/
def applyResourceUpdates (now : Nat) (uName uDesc uTitle : Option String)
    (r : Resource) : Resource :=
  let r1 := match uName with
    | some n => if n = "" then r else { r with name := n }
    | none => r
  let r2 := match uDesc with
    | some d => if d = "" then r1 else { r1 with description := some d }
    | none => r1
  let r3 := match uTitle with
    | some t => if t = "" then r2 else { r2 with title := some t }
    | none => r2
  { r3 with updatedAt := now }

/-- `KnowledgeGraphService.updateResource`: the source performs NO
archived-status check here — only graph and resource existence. -/
def updateResource (now : Nat) (s : Store) (graphId resourceId : String)
    (uName uDesc uTitle : Option String) : Except ErrKind Resource × Store :=
  match mapGet s graphId with
  | none => (.error .notFound, s)
  | some g =>
      match g.resources.find? (fun r => r.id = resourceId) with
      | none => (.error .notFound, s)
      | some resource =>
          let resources1 := updateFirst (fun r => r.id = resourceId)
            (applyResourceUpdates now uName uDesc uTitle) g.resources
          let g1 := { g with resources := resources1, updatedAt := now }
          (.ok (applyResourceUpdates now uName uDesc uTitle resource),
           mapSet s graphId g1)

/-- `KnowledgeGraphService.deleteResource`: the source performs NO
archived-status check here.  The physical file deletion is external I/O;
the in-memory effect purges the resource id from every node's reference
list and splices the resource out of the graph's list. -/
def deleteResource (now : Nat) (s : Store) (graphId resourceId : String) :
    Except ErrKind Unit × Store :=
  match mapGet s graphId with
  | none => (.error .notFound, s)
  | some g =>
      if ¬ g.resources.any (fun r => r.id = resourceId) then
        (.error .notFound, s)
      else
        let nodes1 := g.nodes.map (fun n =>
          match n.resources with
          | some rs =>
              if rs.contains resourceId then
                { n with resources := some (rs.filter (fun i => i ≠ resourceId))
                         updatedAt := now }
              else n
          | none => n)
        let resources1 := eraseFirst (fun r => r.id = resourceId) g.resources
        let g1 := { g with nodes := nodes1, resources := resources1
                           updatedAt := now }
        (.ok (), mapSet s graphId g1)

/-- One mutation request against the store, with all externally supplied
data (timestamps, fresh ids, config) as explicit fields. -/
inductive StoreOp
  | createGraph (now : Nat) (newId name : String) (type : Option String)
      (description : Option String)
  | updateGraph (now : Nat) (id : String) (uName uDesc : Option String)
  | publishGraph (cfg : ServiceConfig) (now : Nat)
      (newResId svgPath id : String)
  | archiveGraph (now : Nat) (id : String)
  | deleteGraph (id : String)
  | addNode (now : Nat) (newId graphId : String) (nodeType : NodeType)
      (name : String) (description filePath : Option String)
      (metadata : Option MetaMap)
  | updateNode (now : Nat) (graphId nodeId : String)
      (uName uDesc uFile : Option String) (uMeta : Option MetaMap)
  | deleteNode (now : Nat) (graphId nodeId : String)
  | addEdge (now : Nat) (newId graphId : String) (edgeType : EdgeType)
      (source target : String) (label : Option String) (weight : Option ℚ)
      (metadata : Option MetaMap)
  | updateEdge (now : Nat) (graphId edgeId : String)
      (uLabel : Option String) (uWeight : Option ℚ) (uMeta : Option MetaMap)
  | deleteEdge (now : Nat) (graphId edgeId : String)
  | addResource (cfg : ServiceConfig) (now : Nat)
      (newId graphId name rtype : String) (description : Option String)
  | linkResourceToNode (now : Nat) (graphId nodeId resourceId : String)
  | unlinkResourceFromNode (now : Nat) (graphId nodeId resourceId : String)
  | updateResource (now : Nat) (graphId resourceId : String)
      (uName uDesc uTitle : Option String)
  | deleteResource (now : Nat) (graphId resourceId : String)

/-- The registry after running one operation (whether it succeeded or
failed). -/
def applyOp (op : StoreOp) (s : Store) : Store :=
  match op with
  | .createGraph now newId name t d => (createGraph now newId s name t d).2
  | .updateGraph now id n d => (updateGraph now s id n d).2
  | .publishGraph cfg now rid p id => (publishGraph cfg now rid p s id).2
  | .archiveGraph now id => (archiveGraph now s id).2
  | .deleteGraph id => (deleteGraph s id).2
  | .addNode now nid gid nt nm d f m => (addNode now nid s gid nt nm d f m).2
  | .updateNode now gid nid n d f m => (updateNode now s gid nid n d f m).2
  | .deleteNode now gid nid => (deleteNode now s gid nid).2
  | .addEdge now eid gid et src tgt l w m =>
      (addEdge now eid s gid et src tgt l w m).2
  | .updateEdge now gid eid l w m => (updateEdge now s gid eid l w m).2
  | .deleteEdge now gid eid => (deleteEdge now s gid eid).2
  | .addResource cfg now rid gid nm ty d =>
      (addResource cfg now rid s gid nm ty d).2
  | .linkResourceToNode now gid nid rid =>
      (linkResourceToNode now s gid nid rid).2
  | .unlinkResourceFromNode now gid nid rid =>
      (unlinkResourceFromNode now s gid nid rid).2
  | .updateResource now gid rid n d t => (updateResource now s gid rid n d t).2
  | .deleteResource now gid rid => (deleteResource now s gid rid).2

/-- Run a sequence of operations from a starting registry. -/
def runOps (ops : List StoreOp) (s : Store) : Store :=
  ops.foldl (fun s op => applyOp op s) s

/-- Every edge's endpoints name nodes present in the same graph. -/
def edgeEndpointsExist (g : Graph) : Prop :=
  ∀ e ∈ g.edges,
    (∃ n ∈ g.nodes, n.id = e.source) ∧ (∃ n ∈ g.nodes, n.id = e.target)

/-- The (source, target, kind) identity of an edge. -/
def tripleOf (e : Edge) : String × String × EdgeType :=
  (e.source, e.target, e.type)

/-- No two distinct edges share the same (source, target, kind) triple. -/
def edgeTriplesDistinct (g : Graph) : Prop :=
  (g.edges.map tripleOf).Pairwise (fun a b => a ≠ b)

/-- Cross-entity edge invariant of a single graph. -/
def GraphWF (g : Graph) : Prop :=
  edgeEndpointsExist g ∧ edgeTriplesDistinct g

/-- The edge invariant, for every graph in the registry. -/
def StoreWF (s : Store) : Prop :=
  ∀ p ∈ s, GraphWF p.2

section Layout

/-- The transcendental primitives `Math.sqrt`, `Math.cos`, `Math.sin` and
the constant `Math.PI` of the layout code, abstracted over ℚ (their exact
floating-point values are irrelevant to the structural properties below,
and any fixed choice yields the source's deterministic behaviour). -/
structure LayoutOps where
  sqrtQ : ℚ → ℚ
  cosQ : ℚ → ℚ
  sinQ : ℚ → ℚ
  piQ : ℚ

/-- The `positions` record: a finite map from node id to coordinates. -/
def PosMap := String → Option (ℚ × ℚ)

/-- The `forces` record, totalised with the 0-initialisation the source
performs for every node id before accumulating. -/
def ForceMap := String → ℚ × ℚ

/-- `positions[k] = p`. -/
def posInsert (m : PosMap) (k : String) (p : ℚ × ℚ) : PosMap :=
  fun k' => if k' = k then some p else m k'

/-- `forces[k].fx += d.1; forces[k].fy += d.2`. -/
def forceAdd (f : ForceMap) (k : String) (d : ℚ × ℚ) : ForceMap :=
  fun k' => if k' = k then ((f k).1 + d.1, (f k).2 + d.2) else f k'

/-- Initial placement: node `i` of `n` on the circle of radius
`0.4 * min(width, height)` around the canvas center, at angle `2πi/n`. -/
def initPositionsAux (ops : LayoutOps) (cx cy r : ℚ) (n : ℕ) :
    List Node → ℕ → PosMap → PosMap
  | [], _, m => m
  | node :: rest, i, m =>
      let angle : ℚ := (2 * ops.piQ * (i : ℚ)) / (n : ℚ)
      initPositionsAux ops cx cy r n rest (i + 1)
        (posInsert m node.id (cx + r * ops.cosQ angle, cy + r * ops.sinQ angle))

/-- Pairwise repulsion between two nodes, inversely proportional to squared
distance (distance floored at 1). -/
def repulsePair (ops : LayoutOps) (repulsionForce : ℚ) (m : PosMap)
    (f : ForceMap) (node1 node2 : Node) : ForceMap :=
  match m node1.id, m node2.id with
  | some pos1, some pos2 =>
      let dx := pos2.1 - pos1.1
      let dy := pos2.2 - pos1.2
      let distance := max 1 (ops.sqrtQ (dx * dx + dy * dy))
      let force := repulsionForce / (distance * distance)
      let fx := dx / distance * force
      let fy := dy / distance * force
      forceAdd (forceAdd f node1.id (-fx, -fy)) node2.id (fx, fy)
  | _, _ => f

/-- The ordered list of index pairs `j < k` the double repulsion loop
visits, as node pairs. -/
def nodePairs : List Node → List (Node × Node)
  | [] => []
  | x :: xs => xs.map (fun y => (x, y)) ++ nodePairs xs

/-- Spring attraction along an edge, proportional to distance / 30;
skipped when either endpoint has no position. -/
def attractEdge (ops : LayoutOps) (m : PosMap) (f : ForceMap) (e : Edge) :
    ForceMap :=
  match m e.source, m e.target with
  | some sourcePos, some targetPos =>
      let dx := targetPos.1 - sourcePos.1
      let dy := targetPos.2 - sourcePos.2
      let distance := max 1 (ops.sqrtQ (dx * dx + dy * dy))
      let force := distance / 30
      let fx := dx / distance * force
      let fy := dy / distance * force
      forceAdd (forceAdd f e.source (fx, fy)) e.target (-fx, -fy)
  | _, _ => f

/-- Centering force on a node further than the initial radius from the
canvas center, proportional to the excess distance / 10. -/
def centerForce (ops : LayoutOps) (cx cy radius : ℚ) (m : PosMap)
    (f : ForceMap) (node : Node) : ForceMap :=
  match m node.id with
  | some pos =>
      let dx := cx - pos.1
      let dy := cy - pos.2
      let distance := ops.sqrtQ (dx * dx + dy * dy)
      if radius < distance then
        let force := (distance - radius) / 10
        forceAdd f node.id (dx / distance * force, dy / distance * force)
      else f
  | none => f

/-- `Math.max(lo, Math.min(hi, x))`. -/
def clampQ (lo hi x : ℚ) : ℚ := max lo (min hi x)

/-- `Math.max(lo, Math.min(hi, x))` is `clampQ`; this is the update
of one node's position: apply its accumulated force with the damping
factor, then clamp both coordinates into
`[nodeRadius, dimension - nodeRadius]`. -/
def applyForcesStep (nodeRadius width height damping : ℚ) (f : ForceMap)
    (m : PosMap) (node : Node) : PosMap :=
  match m node.id with
  | some pos =>
      let force := f node.id
      let x := pos.1 + force.1 * damping
      let y := pos.2 + force.2 * damping
      posInsert m node.id
        (clampQ nodeRadius (width - nodeRadius) x,
         clampQ nodeRadius (height - nodeRadius) y)
  | none => m

/-- Apply each node's accumulated force with damping 0.9, then clamp both
coordinates into `[nodeRadius, dimension - nodeRadius]`. -/
def applyForces (nodeRadius width height damping : ℚ) (f : ForceMap)
    (nodes : List Node) (m : PosMap) : PosMap :=
  nodes.foldl (applyForcesStep nodeRadius width height damping f) m

/-- One iteration of the force relaxation loop. -/
def layoutIteration (ops : LayoutOps) (nodes : List Node) (edges : List Edge)
    (width height nodeRadius cx cy radius : ℚ) (m : PosMap) : PosMap :=
  let repulsionForce := 10000 / (nodes.length : ℚ)
  let f0 : ForceMap := fun _ => (0, 0)
  let f1 := (nodePairs nodes).foldl
    (fun f p => repulsePair ops repulsionForce m f p.1 p.2) f0
  let f2 := edges.foldl (attractEdge ops m) f1
  let f3 := nodes.foldl (centerForce ops cx cy radius m) f2
  applyForces nodeRadius width height (9 / 10) f3 nodes m

/-- `SvgService.calculateNodePositions` with the iteration count as a
parameter (the source inlines `iterations = 50`). -/
def calculateNodePositionsIter (ops : LayoutOps) (nodes : List Node)
    (edges : List Edge) (width height nodeRadius : ℚ) (iterations : ℕ) :
    PosMap :=
  if nodes.length = 0 then fun _ => none
  else
    let centerX := width / 2
    let centerY := height / 2
    let radius := min width height * (2 / 5)
    let m0 := initPositionsAux ops centerX centerY radius nodes.length
      nodes 0 (fun _ => none)
    (layoutIteration ops nodes edges width height nodeRadius
      centerX centerY radius)^[iterations] m0

/-- `SvgService.calculateNodePositions` proper: 50 iterations. -/
def calculateNodePositions (ops : LayoutOps) (nodes : List Node)
    (edges : List Edge) (width height nodeRadius : ℚ) : PosMap :=
  calculateNodePositionsIter ops nodes edges width height nodeRadius 50

end Layout

/-- `SvgService.truncateText`: text of length ≤ maxLength is kept, longer
text is cut to `maxLength - 3` units with "..." appended. -/
def truncateText (text : String) (maxLength : Nat) : String :=
  if text.length ≤ maxLength then text
  else (text.take (maxLength - 3)).append "..."

/-- The label text rendered inside a node's circle in
`SvgService.generateGraphSvg` (`truncateText(node.name, 15)`). -/
def nodeLabelText (node : Node) : String :=
  truncateText node.name 15

/-- Node/edge kind admissibility, as decided by the source validators. -/
def allowedNodeType (gt : GraphType) (nt : NodeType) : Prop :=
  validateNodeTypeForGraphType gt nt = .ok ()

def allowedEdgeType (gt : GraphType) (et : EdgeType) : Prop :=
  validateEdgeTypeForGraphType gt et = .ok ()

/-- Both coordinates of a position lie fully inside the canvas. -/
def InsideCanvas (nodeRadius width height : ℚ) (p : ℚ × ℚ) : Prop :=
  nodeRadius ≤ p.1 ∧ p.1 ≤ width - nodeRadius ∧
  nodeRadius ≤ p.2 ∧ p.2 ≤ height - nodeRadius

/-- Concrete fixtures used to instantiate the theorems below. -/
def resR1 : Resource := createResource "r1" "res1" "svg" "resources/svg/a.svg" none 0

def resR2 : Resource :=
  createResource "r2" "res2" "markdown" "resources/md/b.md" none 0

def nodeA : Node :=
  { createNode "n1" .component "A" none none none 0 with
      resources := some ["r1"] }

def nodeB : Node := createNode "n2" .component "B" none none none 0

def edgeAB : Edge := createEdge "e1" .depends_on "n1" "n2" none none none 0

def baseGraph : Graph :=
  { id := "g1", name := "G", description := none, type := .topology
    status := .draft, rootNodeId := none, nodes := [nodeA, nodeB]
    edges := [edgeAB], resources := [resR1, resR2], metadata := none
    createdAt := 0, updatedAt := 0, publishedAt := none, archivedAt := none }

def draftStore : Store := [("g1", baseGraph)]

def archivedGraph : Graph :=
  { baseGraph with status := .archived, archivedAt := some 1 }

def archivedStore : Store := [("g1", archivedGraph)]

def publishedGraph : Graph :=
  { baseGraph with status := .published, publishedAt := some 1 }

def publishedStore : Store := [("g1", publishedGraph)]

/-- A concrete choice of transcendental primitives for instantiations. -/
def trivialLayoutOps : LayoutOps :=
  { sqrtQ := fun _ => 0, cosQ := fun _ => 0, sinQ := fun _ => 0, piQ := 0 }

/-! ### Helper lemmas -/

theorem mem_updateFirst {p : α → Bool} {f : α → α} {l : List α} {y : α}
    (hy : y ∈ updateFirst p f l) : ∃ x ∈ l, y = x ∨ y = f x := by
  induction l with
  | nil => simp [updateFirst] at hy
  | cons x xs ih =>
      by_cases hp : p x
      · simp only [updateFirst, if_pos hp, List.mem_cons] at hy
        rcases hy with h | h
        · exact ⟨x, List.mem_cons_self x xs, Or.inr h⟩
        · exact ⟨y, List.mem_cons_of_mem x h, Or.inl rfl⟩
      · simp only [updateFirst, if_neg hp, List.mem_cons] at hy
        rcases hy with h | h
        · exact ⟨x, List.mem_cons_self x xs, Or.inl h⟩
        · obtain ⟨x', hx', h'⟩ := ih h
          exact ⟨x', List.mem_cons_of_mem x hx', h'⟩

theorem updateFirst_map_eq {p : α → Bool} {f : α → α} {g : α → β}
    (hg : ∀ a, g (f a) = g a) (l : List α) :
    (updateFirst p f l).map g = l.map g := by
  induction l with
  | nil => rfl
  | cons x xs ih =>
      by_cases hp : p x
      · simp [updateFirst, if_pos hp, hg]
      · simp [updateFirst, if_neg hp, ih]

theorem eraseFirst_sublist (p : α → Bool) (l : List α) :
    (eraseFirst p l).Sublist l := by
  induction l with
  | nil => exact List.Sublist.refl []
  | cons x xs ih =>
      by_cases hp : p x
      · simp only [eraseFirst, if_pos hp]
        exact List.sublist_cons_self x xs
      · simpa [eraseFirst, if_neg hp] using ih.cons₂ x

theorem mem_eraseFirst_of_mem {p : α → Bool} {l : List α} {a : α}
    (ha : a ∈ l) (hp : p a = false) : a ∈ eraseFirst p l := by
  induction l with
  | nil => simp at ha
  | cons x xs ih =>
      rcases List.mem_cons.mp ha with rfl | h
      · simp [eraseFirst, hp]
      · by_cases hx : p x
        · simp [eraseFirst, if_pos hx, h]
        · simp only [eraseFirst, if_neg hx, List.mem_cons]
          exact Or.inr (ih h)

theorem key_ne_of_mem_eraseFirst {key : α → β} {l : List α} {k : β}
    [DecidableEq β] (hnd : (l.map key).Nodup) :
    ∀ y ∈ eraseFirst (fun x => key x = k) l, key y ≠ k := by
  induction l with
  | nil => intro y hy; simp [eraseFirst] at hy
  | cons x xs ih =>
      simp only [List.map_cons, List.nodup_cons] at hnd
      intro y hy
      by_cases hx : key x = k
      · rw [show eraseFirst (fun x => decide (key x = k)) (x :: xs) = xs by
          simp [eraseFirst, hx]] at hy
        intro hk
        exact hnd.1 (hx ▸ hk ▸ List.mem_map_of_mem key hy)
      · rw [show eraseFirst (fun x => decide (key x = k)) (x :: xs)
            = x :: eraseFirst (fun x => decide (key x = k)) xs by
          simp [eraseFirst, hx]] at hy
        rcases List.mem_cons.mp hy with rfl | h
        · exact hx
        · exact ih hnd.2 y h

theorem mapGet_mem {s : Store} {k : String} {g : Graph}
    (h : mapGet s k = some g) : ∃ p ∈ s, p.2 = g := by
  simp only [mapGet, Option.map_eq_some'] at h
  obtain ⟨p, hp, hpg⟩ := h
  exact ⟨p, List.mem_of_find?_eq_some hp, hpg⟩

theorem storeWF_of_get {s : Store} {k : String} {g : Graph}
    (hwf : StoreWF s) (h : mapGet s k = some g) : GraphWF g := by
  obtain ⟨p, hp, hpg⟩ := mapGet_mem h
  exact hpg ▸ hwf p hp

theorem mapSet_wf {s : Store} {k : String} {g : Graph}
    (hwf : StoreWF s) (hg : GraphWF g) : StoreWF (mapSet s k g) := by
  intro p hp
  unfold mapSet at hp
  by_cases hc : s.any (fun p => decide (p.1 = k))
  · rw [if_pos hc] at hp
    obtain ⟨q, hq, hqp⟩ := List.mem_map.mp hp
    by_cases hqk : q.1 = k
    · rw [if_pos hqk] at hqp
      exact hqp ▸ hg
    · rw [if_neg hqk] at hqp
      exact hqp ▸ hwf q hq
  · rw [if_neg hc] at hp
    rcases List.mem_append.mp hp with h | h
    · exact hwf p h
    · rcases List.mem_singleton.mp h with rfl
      exact hg

theorem mapDel_wf {s : Store} {k : String} (hwf : StoreWF s) :
    StoreWF (mapDel s k) := fun p hp =>
  hwf p (List.mem_of_mem_filter hp)

theorem mapSet_fresh {s : Store} {k : String} {g : Graph}
    (h : ∀ p ∈ s, p.1 ≠ k) : mapSet s k g = s ++ [(k, g)] := by
  unfold mapSet
  rw [if_neg]
  simp only [List.any_eq_true, decide_eq_true_eq, not_exists]
  intro p hp
  exact h p hp.1 hp.2

theorem graphWF_mono {g g' : Graph}
    (hn : ∀ i, i ∈ g.nodes.map Node.id → i ∈ g'.nodes.map Node.id)
    (he : g'.edges = g.edges) (hwf : GraphWF g) : GraphWF g' := by
  constructor
  · intro e he'
    rw [he] at he'
    obtain ⟨⟨ns, hns, hnss⟩, ⟨nt, hnt, hntt⟩⟩ := hwf.1 e he'
    constructor
    · have : e.source ∈ g'.nodes.map Node.id :=
        hn _ (hnss ▸ List.mem_map_of_mem Node.id hns)
      obtain ⟨n', hn', hn's⟩ := List.mem_map.mp this
      exact ⟨n', hn', hn's⟩
    · have : e.target ∈ g'.nodes.map Node.id :=
        hn _ (hntt ▸ List.mem_map_of_mem Node.id hnt)
      obtain ⟨n', hn', hn't⟩ := List.mem_map.mp this
      exact ⟨n', hn', hn't⟩
  · unfold edgeTriplesDistinct at *
    rw [he]
    exact hwf.2

theorem graphWF_edges_sublist {g g' : Graph}
    (hn : g'.nodes = g.nodes) (he : g'.edges.Sublist g.edges)
    (hwf : GraphWF g) : GraphWF g' := by
  constructor
  · intro e he'
    have := hwf.1 e (he.mem he')
    rw [hn]
    exact this
  · exact List.Pairwise.sublist (List.Sublist.map tripleOf he) hwf.2

theorem graphWF_updateEdges {g g' : Graph} {p : Edge → Bool} {f : Edge → Edge}
    (hf : ∀ e, tripleOf (f e) = tripleOf e)
    (hn : g'.nodes = g.nodes) (he : g'.edges = updateFirst p f g.edges)
    (hwf : GraphWF g) : GraphWF g' := by
  have hsrc : ∀ e, (f e).source = e.source := fun e =>
    congrArg (fun t => t.1) (hf e)
  have htgt : ∀ e, (f e).target = e.target := fun e =>
    congrArg (fun t => t.2.1) (hf e)
  constructor
  · intro e he'
    rw [he] at he'
    obtain ⟨e0, he0, hcase⟩ := mem_updateFirst he'
    have hs : e.source = e0.source := by
      rcases hcase with rfl | rfl
      · rfl
      · exact hsrc e0
    have ht : e.target = e0.target := by
      rcases hcase with rfl | rfl
      · rfl
      · exact htgt e0
    have := hwf.1 e0 he0
    rw [hn, hs, ht]
    exact this
  · unfold edgeTriplesDistinct
    rw [he, updateFirst_map_eq hf]
    exact hwf.2

theorem graphWF_addEdge {g g' : Graph} {e : Edge}
    (hn : g'.nodes = g.nodes) (he : g'.edges = g.edges ++ [e])
    (hs : ∃ n ∈ g.nodes, n.id = e.source)
    (ht : ∃ n ∈ g.nodes, n.id = e.target)
    (hdup : ∀ e' ∈ g.edges, tripleOf e' ≠ tripleOf e)
    (hwf : GraphWF g) : GraphWF g' := by
  constructor
  · intro e' he'
    rw [he] at he'
    rcases List.mem_append.mp he' with h | h
    · have := hwf.1 e' h
      rw [hn]
      exact this
    · rcases List.mem_singleton.mp h with rfl
      rw [hn]
      exact ⟨hs, ht⟩
  · unfold edgeTriplesDistinct
    rw [he, List.map_append]
    refine List.pairwise_append.mpr ⟨hwf.2, List.pairwise_singleton _ _, ?_⟩
    intro a ha b hb
    obtain ⟨e0, he0, rfl⟩ := List.mem_map.mp ha
    rcases List.mem_singleton.mp hb with rfl
    exact hdup e0 he0

theorem graphWF_deleteNode {g g' : Graph} {nid : String}
    (hn : g'.nodes = eraseFirst (fun n => n.id = nid) g.nodes)
    (he : g'.edges = g.edges.filter (fun e => e.source ≠ nid ∧ e.target ≠ nid))
    (hwf : GraphWF g) : GraphWF g' := by
  constructor
  · intro e he'
    rw [he] at he'
    have hmem : e ∈ g.edges := List.mem_of_mem_filter he'
    have hpred := List.of_mem_filter he'
    simp only [decide_eq_true_eq, Bool.and_eq_true, decide_not,
      Bool.not_eq_true', decide_eq_false_iff_not] at hpred
    obtain ⟨⟨ns, hns, hnss⟩, ⟨nt, hnt, hntt⟩⟩ := hwf.1 e hmem
    rw [hn]
    constructor
    · refine ⟨ns, mem_eraseFirst_of_mem hns ?_, hnss⟩
      simp only [decide_eq_false_iff_not]
      rw [hnss]
      exact hpred.1
    · refine ⟨nt, mem_eraseFirst_of_mem hnt ?_, hntt⟩
      simp only [decide_eq_false_iff_not]
      rw [hntt]
      exact hpred.2
  · refine List.Pairwise.sublist (List.Sublist.map tripleOf ?_) hwf.2
    rw [he]
    exact List.filter_sublist g.edges

theorem wf_addNode {s : Store} (hwf : StoreWF s) :
    StoreWF (addNode now newId s graphId nodeType name d fp md).2 := by
  unfold addNode
  split
  · exact hwf
  next g hg =>
    split
    · exact hwf
    · split_ifs with h1 h2
      · exact hwf
      · exact hwf
      · refine mapSet_wf hwf ?_
        refine graphWF_mono (g := g) ?_ rfl (storeWF_of_get hwf hg)
        intro i hi
        simp only [List.map_append, List.mem_append]
        exact Or.inl hi

theorem graphWF_no_edges {g : Graph} (h : g.edges = []) : GraphWF g := by
  constructor
  · intro e he
    rw [h] at he
    exact absurd he (List.not_mem_nil e)
  · unfold edgeTriplesDistinct
    rw [h]
    exact List.Pairwise.nil

theorem mem_map_id_updateFirst {p : Node → Bool} {f : Node → Node}
    (hf : ∀ n, (f n).id = n.id) {l : List Node} {i : String}
    (hi : i ∈ l.map Node.id) : i ∈ (updateFirst p f l).map Node.id := by
  rw [updateFirst_map_eq hf]
  exact hi

theorem mem_map_id_map {f : Node → Node}
    (hf : ∀ n, (f n).id = n.id) {l : List Node} {i : String}
    (hi : i ∈ l.map Node.id) : i ∈ (l.map f).map Node.id := by
  rw [List.map_map]
  rw [show Node.id ∘ f = Node.id from funext hf]
  exact hi

theorem wf_createGraph {s : Store} (hwf : StoreWF s) :
    StoreWF (createGraph now newId s name ty d).2 := by
  unfold createGraph
  split_ifs with h1
  · exact hwf
  · rcases ty with _ | t
    · exact mapSet_wf hwf (graphWF_no_edges rfl)
    · dsimp only
      split
      · exact hwf
      · exact mapSet_wf hwf (graphWF_no_edges rfl)

theorem wf_updateGraph {s : Store} {gid : String} (hwf : StoreWF s) :
    StoreWF (updateGraph now s gid un ud).2 := by
  unfold updateGraph
  split
  · exact hwf
  next g hg =>
    split_ifs with h1
    · exact hwf
    · refine mapSet_wf hwf ?_
      have hwfg := storeWF_of_get hwf hg
      rcases un with _ | nm <;> rcases ud with _ | dd <;> dsimp only <;>
        first
          | (split_ifs <;>
              exact graphWF_mono (g := g) (fun i hi => hi) rfl hwfg)
          | exact graphWF_mono (g := g) (fun i hi => hi) rfl hwfg

theorem wf_publishGraph {s : Store} {gid : String} (hwf : StoreWF s) :
    StoreWF (publishGraph cfg now rid pth s gid).2 := by
  unfold publishGraph
  split
  · exact hwf
  next g hg =>
    split_ifs with h1 h2
    · exact hwf
    · exact mapSet_wf hwf
        (graphWF_mono (g := g) (fun i hi => hi) rfl (storeWF_of_get hwf hg))
    · exact mapSet_wf hwf
        (graphWF_mono (g := g) (fun i hi => hi) rfl (storeWF_of_get hwf hg))

theorem wf_archiveGraph {s : Store} {gid : String} (hwf : StoreWF s) :
    StoreWF (archiveGraph now s gid).2 := by
  unfold archiveGraph
  split
  · exact hwf
  next g hg =>
    exact mapSet_wf hwf
      (graphWF_mono (g := g) (fun i hi => hi) rfl (storeWF_of_get hwf hg))

theorem wf_deleteGraph {s : Store} {gid : String} (hwf : StoreWF s) :
    StoreWF (deleteGraph s gid).2 := by
  unfold deleteGraph
  split
  · exact hwf
  · exact mapDel_wf hwf

theorem applyNodeUpdates_id (now : Nat) (un ud uf : Option String)
    (um : Option MetaMap) (n : Node) :
    (applyNodeUpdates now un ud uf um n).id = n.id := by
  unfold applyNodeUpdates
  rcases un with _ | nm <;> rcases ud with _ | dd <;>
    rcases uf with _ | ff <;> rcases um with _ | mm <;> dsimp only <;>
    split_ifs <;> rfl

theorem wf_updateNode {s : Store} (hwf : StoreWF s) :
    StoreWF (updateNode now s graphId nodeId un ud uf um).2 := by
  unfold updateNode
  split
  · exact hwf
  next g hg =>
    split_ifs with h1
    · exact hwf
    · split
      · exact hwf
      · dsimp only
        split_ifs with h2
        · exact hwf
        · refine mapSet_wf hwf ?_
          refine graphWF_mono (g := g) ?_ rfl (storeWF_of_get hwf hg)
          intro i hi
          exact mem_map_id_updateFirst (applyNodeUpdates_id now un ud uf um) hi

theorem wf_deleteNode {s : Store} (hwf : StoreWF s) :
    StoreWF (deleteNode now s graphId nodeId).2 := by
  unfold deleteNode
  split
  · exact hwf
  next g hg =>
    split
    · exact hwf
    · split
      · exact hwf
      · split
        · exact hwf
        · exact mapSet_wf hwf
            (graphWF_deleteNode (g := g) rfl rfl (storeWF_of_get hwf hg))

theorem wf_addEdge {s : Store} (hwf : StoreWF s) :
    StoreWF (addEdge now newId s graphId edgeType src tgt l w md).2 := by
  unfold addEdge
  split
  · exact hwf
  next g hg =>
    split
    · exact hwf
    · split
      · exact hwf
      · split
        · exact hwf
        next h2 =>
          split
          · exact hwf
          next h3 =>
            split
            · exact hwf
            next h4 =>
              refine mapSet_wf hwf ?_
              refine graphWF_addEdge (g := g) rfl rfl ?_ ?_ ?_
                (storeWF_of_get hwf hg)
              · rw [not_not] at h2
                simpa using h2
              · rw [not_not] at h3
                simpa using h3
              · intro e' he' hc
                refine h4 ?_
                simp only [List.any_eq_true]
                refine ⟨e', he', ?_⟩
                have h1c := congrArg (fun t => t.1) hc
                have h2c := congrArg (fun t => t.2.1) hc
                have h3c := congrArg (fun t => t.2.2) hc
                simp only [tripleOf, createEdge] at h1c h2c h3c
                simp [h1c, h2c, h3c]

theorem applyEdgeUpdates_triple (now : Nat) (ul : Option String)
    (uw : Option ℚ) (um : Option MetaMap) (e : Edge) :
    tripleOf (applyEdgeUpdates now ul uw um e) = tripleOf e := by
  unfold applyEdgeUpdates tripleOf
  rcases ul with _ | ll <;> rcases uw with _ | ww <;>
    rcases um with _ | mm <;> rfl

theorem wf_updateEdge {s : Store} (hwf : StoreWF s) :
    StoreWF (updateEdge now s graphId edgeId ul uw um).2 := by
  unfold updateEdge
  split
  · exact hwf
  next g hg =>
    split_ifs with h1
    · exact hwf
    · split
      · exact hwf
      · exact mapSet_wf hwf
          (graphWF_updateEdges (g := g)
            (applyEdgeUpdates_triple now ul uw um)
            rfl rfl (storeWF_of_get hwf hg))

theorem wf_deleteEdge {s : Store} (hwf : StoreWF s) :
    StoreWF (deleteEdge now s graphId edgeId).2 := by
  unfold deleteEdge
  split
  · exact hwf
  next g hg =>
    split
    · exact hwf
    · split
      · exact hwf
      · exact mapSet_wf hwf
          (graphWF_edges_sublist (g := g) rfl (eraseFirst_sublist _ _)
            (storeWF_of_get hwf hg))

theorem wf_addResource {s : Store} (hwf : StoreWF s) :
    StoreWF (addResource cfg now newId s graphId name rtype d).2 := by
  unfold addResource
  split
  · exact hwf
  next g hg =>
    split
    · exact hwf
    · split
      · exact hwf
      · split
        · exact hwf
        · exact mapSet_wf hwf
            (graphWF_mono (g := g) (fun i hi => hi) rfl
              (storeWF_of_get hwf hg))

theorem wf_linkResourceToNode {s : Store} (hwf : StoreWF s) :
    StoreWF (linkResourceToNode now s graphId nodeId resourceId).2 := by
  unfold linkResourceToNode
  split
  · exact hwf
  next g hg =>
    split
    · exact hwf
    · split
      · exact hwf
      · split
        · exact hwf
        · split
          · exact hwf
          · refine mapSet_wf hwf ?_
            refine graphWF_mono (g := g) ?_ rfl (storeWF_of_get hwf hg)
            intro i hi
            dsimp only
            refine mem_map_id_updateFirst ?_ hi
            intro a
            rfl

theorem wf_unlinkResourceFromNode {s : Store} (hwf : StoreWF s) :
    StoreWF (unlinkResourceFromNode now s graphId nodeId resourceId).2 := by
  unfold unlinkResourceFromNode
  split
  · exact hwf
  next g hg =>
    split
    · exact hwf
    · split
      · exact hwf
      · split
        · exact hwf
        · refine mapSet_wf hwf ?_
          refine graphWF_mono (g := g) ?_ rfl (storeWF_of_get hwf hg)
          intro i hi
          dsimp only
          refine mem_map_id_updateFirst ?_ hi
          intro a
          rfl

theorem wf_updateResource {s : Store} (hwf : StoreWF s) :
    StoreWF (updateResource now s graphId resourceId un ud ut).2 := by
  unfold updateResource
  split
  · exact hwf
  next g hg =>
    split
    · exact hwf
    · exact mapSet_wf hwf
        (graphWF_mono (g := g) (fun i hi => hi) rfl (storeWF_of_get hwf hg))

theorem deleteResource_node_id (now : Nat) (resourceId : String) (n : Node) :
    (match n.resources with
      | some rs =>
          if rs.contains resourceId then
            { n with resources := some (rs.filter (fun i => i ≠ resourceId))
                     updatedAt := now }
          else n
      | none => n).id = n.id := by
  rcases hr : n.resources with _ | rs
  · rfl
  · dsimp only
    split_ifs <;> rfl

theorem wf_deleteResource {s : Store} (hwf : StoreWF s) :
    StoreWF (deleteResource now s graphId resourceId).2 := by
  unfold deleteResource
  split
  · exact hwf
  next g hg =>
    split
    · exact hwf
    · refine mapSet_wf hwf ?_
      refine graphWF_mono (g := g) ?_ rfl (storeWF_of_get hwf hg)
      intro i hi
      dsimp only
      refine mem_map_id_map ?_ hi
      intro n
      exact deleteResource_node_id now resourceId n

theorem storeWF_applyOp {s : Store} (op : StoreOp) (hwf : StoreWF s) :
    StoreWF (applyOp op s) := by
  cases op with
  | createGraph now newId name t d => exact wf_createGraph hwf
  | updateGraph now id n d => exact wf_updateGraph hwf
  | publishGraph cfg now rid p id => exact wf_publishGraph hwf
  | archiveGraph now id => exact wf_archiveGraph hwf
  | deleteGraph id => exact wf_deleteGraph hwf
  | addNode now nid gid nt nm d f m => exact wf_addNode hwf
  | updateNode now gid nid n d f m => exact wf_updateNode hwf
  | deleteNode now gid nid => exact wf_deleteNode hwf
  | addEdge now eid gid et src tgt l w m => exact wf_addEdge hwf
  | updateEdge now gid eid l w m => exact wf_updateEdge hwf
  | deleteEdge now gid eid => exact wf_deleteEdge hwf
  | addResource cfg now rid gid nm ty d => exact wf_addResource hwf
  | linkResourceToNode now gid nid rid => exact wf_linkResourceToNode hwf
  | unlinkResourceFromNode now gid nid rid =>
      exact wf_unlinkResourceFromNode hwf
  | updateResource now gid rid n d t => exact wf_updateResource hwf
  | deleteResource now gid rid => exact wf_deleteResource hwf


theorem clampQ_mem {lo hi : ℚ} (x : ℚ) (h : lo ≤ hi) :
    lo ≤ clampQ lo hi x ∧ clampQ lo hi x ≤ hi :=
  ⟨le_max_left lo _, max_le h (min_le_left hi x)⟩

theorem initPositionsAux_keys {ops : LayoutOps} {cx cy r : ℚ} {nn : ℕ}
    {P : String → Prop} :
    ∀ (l : List Node) (i : ℕ) (m : PosMap),
      (∀ k p, m k = some p → P k) → (∀ nd ∈ l, P nd.id) →
      ∀ k p, initPositionsAux ops cx cy r nn l i m k = some p → P k := by
  intro l
  induction l with
  | nil =>
      intro i m hm _ k p hk
      exact hm k p hk
  | cons nd rest ih =>
      intro i m hm hl k p hk
      refine ih (i + 1) _ ?_ (fun x hx => hl x (List.mem_cons_of_mem nd hx))
        k p hk
      intro k' p' hk'
      unfold posInsert at hk'
      by_cases hkk : k' = nd.id
      · exact hkk ▸ hl nd (List.mem_cons_self nd rest)
      · rw [if_neg hkk] at hk'
        exact hm k' p' hk'

theorem applyForcesStep_keys {nr w h d : ℚ} {f : ForceMap} {m : PosMap}
    {node : Node} {P : String → Prop}
    (hm : ∀ k p, m k = some p → P k) (hn : P node.id) :
    ∀ k p, applyForcesStep nr w h d f m node k = some p → P k := by
  intro k p hk
  unfold applyForcesStep at hk
  cases hpos : m node.id with
  | none =>
      rw [hpos] at hk
      exact hm k p hk
  | some pos =>
      rw [hpos] at hk
      dsimp only [posInsert] at hk
      by_cases hkk : k = node.id
      · exact hkk ▸ hn
      · rw [if_neg hkk] at hk
        exact hm k p hk

theorem applyForces_keys {nr w h d : ℚ} {f : ForceMap} {P : String → Prop} :
    ∀ (nodes : List Node) (m : PosMap),
      (∀ k p, m k = some p → P k) → (∀ nd ∈ nodes, P nd.id) →
      ∀ k p, applyForces nr w h d f nodes m k = some p → P k := by
  intro nodes
  induction nodes with
  | nil =>
      intro m hm _ k p hk
      exact hm k p hk
  | cons nd rest ih =>
      intro m hm hl k p hk
      rw [show applyForces nr w h d f (nd :: rest) m
            = applyForces nr w h d f rest
                (applyForcesStep nr w h d f m nd) from rfl] at hk
      exact ih _
        (applyForcesStep_keys hm (hl nd (List.mem_cons_self nd rest)))
        (fun x hx => hl x (List.mem_cons_of_mem nd hx)) k p hk

theorem layoutIteration_keys {ops : LayoutOps} {nodes : List Node}
    {edges : List Edge} {w h nr cx cy radius : ℚ} {m : PosMap}
    {P : String → Prop}
    (hm : ∀ k p, m k = some p → P k) (hl : ∀ nd ∈ nodes, P nd.id) :
    ∀ k p, layoutIteration ops nodes edges w h nr cx cy radius m k = some p →
      P k := by
  intro k p hk
  exact applyForces_keys nodes m hm hl k p hk

theorem applyForces_bound {nr w h d : ℚ} {f : ForceMap}
    (hw : nr ≤ w - nr) (hh : nr ≤ h - nr) :
    ∀ (nodes : List Node) (m : PosMap) (k : String) (p : ℚ × ℚ),
      applyForces nr w h d f nodes m k = some p →
      InsideCanvas nr w h p ∨ (m k = some p ∧ ∀ nd ∈ nodes, nd.id ≠ k) := by
  intro nodes
  induction nodes with
  | nil =>
      intro m k p hk
      exact Or.inr ⟨hk, fun nd hnd => absurd hnd (List.not_mem_nil nd)⟩
  | cons nd rest ih =>
      intro m k p hk
      rw [show applyForces nr w h d f (nd :: rest) m
            = applyForces nr w h d f rest
                (applyForcesStep nr w h d f m nd) from rfl] at hk
      rcases ih _ k p hk with hin | ⟨hstep, hrest⟩
      · exact Or.inl hin
      · unfold applyForcesStep at hstep
        cases hpos : m nd.id with
        | none =>
            rw [hpos] at hstep
            dsimp only at hstep
            refine Or.inr ⟨hstep, ?_⟩
            intro x hx
            rcases List.mem_cons.mp hx with rfl | hx'
            · intro hxk
              rw [hxk] at hpos
              rw [hpos] at hstep
              exact Option.noConfusion hstep
            · exact hrest x hx'
        | some pos =>
            rw [hpos] at hstep
            dsimp only [posInsert] at hstep
            by_cases hkk : k = nd.id
            · rw [if_pos hkk] at hstep
              refine Or.inl ?_
              obtain rfl : (clampQ nr (w - nr) _, clampQ nr (h - nr) _) = p :=
                Option.some.inj hstep
              exact ⟨(clampQ_mem _ hw).1, (clampQ_mem _ hw).2,
                (clampQ_mem _ hh).1, (clampQ_mem _ hh).2⟩
            · rw [if_neg hkk] at hstep
              refine Or.inr ⟨hstep, ?_⟩
              intro x hx
              rcases List.mem_cons.mp hx with rfl | hx'
              · exact fun hxk => hkk hxk.symm
              · exact hrest x hx'

theorem calcIter_keys {ops : LayoutOps} {nodes : List Node}
    {edges : List Edge} {w h nr cx cy radius : ℚ} (iters : ℕ) :
    ∀ k p,
      ((layoutIteration ops nodes edges w h nr cx cy radius)^[iters]
        (initPositionsAux ops cx cy radius nodes.length nodes 0
          (fun _ => none))) k = some p →
      ∃ nd ∈ nodes, nd.id = k := by
  induction iters with
  | zero =>
      intro k p hk
      refine initPositionsAux_keys
        (P := fun i => ∃ nd ∈ nodes, nd.id = i) nodes 0 _ ?_
        (fun nd hnd => ⟨nd, hnd, rfl⟩) k p hk
      intro k' p' hk'
      exact Option.noConfusion hk'
  | succ n ih =>
      intro k p hk
      rw [Function.iterate_succ_apply'] at hk
      exact layoutIteration_keys
        (P := fun i => ∃ nd ∈ nodes, nd.id = i) ih
        (fun nd hnd => ⟨nd, hnd, rfl⟩) k p hk

theorem storeWF_runOps (ops : List StoreOp) {s : Store} (hwf : StoreWF s) :
    StoreWF (runOps ops s) := by
  induction ops generalizing s with
  | nil => exact hwf
  | cons op rest ih => exact ih (storeWF_applyOp op hwf)

/-! ### Claim theorems -/

/-- C7: the layout computation is a pure function of its inputs — for any
fixed transcendental primitives, node/edge lists, canvas size, node radius
and iteration count, two runs produce identical position maps (there is no
source of randomness in `calculateNodePositions`). -/
theorem c7_layout_deterministic (ops : LayoutOps) (nodes : List Node)
    (edges : List Edge) (width height nodeRadius : ℚ) (iterations : ℕ) :
    calculateNodePositionsIter ops nodes edges width height nodeRadius
        iterations
      = calculateNodePositionsIter ops nodes edges width height nodeRadius
        iterations
    ∧ calculateNodePositions ops nodes edges width height nodeRadius
      = calculateNodePositions ops nodes edges width height nodeRadius :=
  ⟨rfl, rfl⟩

/-- C9 counterexample: the claim predicts that a 16-character name keeps
its first 15 characters before the ellipsis, but `truncateText` keeps only
`15 - 3 = 12` characters. -/
theorem c9_counterexample :
    truncateText "abcdefghijklmnop" 15 = "abcdefghijkl..."
    ∧ truncateText "abcdefghijklmnop" 15 ≠ "abcdefghijklmno..." := by
  constructor
  · rfl
  · decide

/-- C9 (amended): a node name of at most 15 characters is rendered
verbatim; a longer name is truncated to 12 characters (15 minus the three
characters of the appended "..." ellipsis), so the label is 15 characters
in total. -/
theorem c9_node_label (node : Node) :
    (node.name.length ≤ 15 → nodeLabelText node = node.name)
    ∧ (15 < node.name.length →
        nodeLabelText node = (node.name.take 12).append "...") := by
  constructor
  · intro hle
    unfold nodeLabelText truncateText
    rw [if_pos hle]
  · intro hlt
    unfold nodeLabelText truncateText
    rw [if_neg (by omega)]

/-- C9 witness: the amended statement at two concrete names. -/
theorem c9_witness :
    ("short" : String).length ≤ 15
    ∧ nodeLabelText (createNode "n" .component "short" none none none 0)
        = "short"
    ∧ 15 < ("abcdefghijklmnop" : String).length
    ∧ nodeLabelText
        (createNode "n" .component "abcdefghijklmnop" none none none 0)
        = (("abcdefghijklmnop" : String).take 12).append "..." :=
  ⟨by decide,
   (c9_node_label (createNode "n" .component "short" none none none 0)).1
     (by decide),
   by decide,
   (c9_node_label
     (createNode "n" .component "abcdefghijklmnop" none none none 0)).2
     (by decide)⟩

/-- C6: `createGraph` rejects an empty name with `InvalidInput` and an
unrecognised kind string with `TypeMismatch`; otherwise it appends to the
registry a fresh draft graph with empty node/edge/resource lists, the
requested kind (default `topology`), the generated id, and returns it. -/
theorem c6_createGraph :
    (∀ (now : Nat) (newId : String) (s : Store) (t : Option String)
        (d : Option String),
        createGraph now newId s "" t d = (.error .invalidInput, s))
    ∧ (∀ (now : Nat) (newId : String) (s : Store) (nm t : String)
        (d : Option String), nm ≠ "" → graphTypeOfString t = none →
        createGraph now newId s nm (some t) d = (.error .typeMismatch, s))
    ∧ (∀ (now : Nat) (newId : String) (s : Store) (nm : String)
        (t : Option String) (d : Option String) (gt : GraphType),
        nm ≠ "" →
        ((t = none ∧ gt = .topology) ∨
          (∃ ts, t = some ts ∧ graphTypeOfString ts = some gt)) →
        (∀ p ∈ s, p.1 ≠ newId) →
        ∃ g, createGraph now newId s nm t d = (.ok g, s ++ [(newId, g)])
          ∧ g.id = newId ∧ g.name = nm ∧ g.type = gt ∧ g.status = .draft
          ∧ g.nodes = [] ∧ g.edges = [] ∧ g.resources = []
          ∧ ∀ p ∈ s, p.1 ≠ g.id) := by
  refine ⟨?_, ?_, ?_⟩
  · intro now newId s t d
    unfold createGraph
    rw [if_pos rfl]
  · intro now newId s nm t d hnm ht
    unfold createGraph
    rw [if_neg hnm]
    dsimp only
    rw [ht]
  · intro now newId s nm t d gt hnm ht hfresh
    rcases ht with ⟨rfl, rfl⟩ | ⟨ts, rfl, hts⟩
    · refine ⟨{ id := newId, name := nm, description := d,
                type := GraphType.topology, status := .draft,
                rootNodeId := none, nodes := [], edges := [],
                resources := [], metadata := none, createdAt := now,
                updatedAt := now, publishedAt := none, archivedAt := none },
        ?_, rfl, rfl, rfl, rfl, rfl, rfl, rfl, hfresh⟩
      unfold createGraph
      rw [if_neg hnm]
      dsimp only
      rw [mapSet_fresh hfresh]
    · refine ⟨{ id := newId, name := nm, description := d,
                type := gt, status := .draft,
                rootNodeId := none, nodes := [], edges := [],
                resources := [], metadata := none, createdAt := now,
                updatedAt := now, publishedAt := none, archivedAt := none },
        ?_, rfl, rfl, rfl, rfl, rfl, rfl, rfl, hfresh⟩
      unfold createGraph
      rw [if_neg hnm]
      dsimp only
      rw [hts]
      dsimp only
      rw [mapSet_fresh hfresh]

/-- C6 witness: the three branches at concrete inputs. -/
theorem c6_witness :
    createGraph 1 "gX" draftStore "" none none
      = (.error .invalidInput, draftStore)
    ∧ ("H" : String) ≠ "" ∧ graphTypeOfString "bogus" = none
    ∧ createGraph 1 "gX" draftStore "H" (some "bogus") none
      = (.error .typeMismatch, draftStore)
    ∧ (∀ p ∈ draftStore, p.1 ≠ "gX")
    ∧ ∃ g, createGraph 1 "gX" draftStore "H" (some "timeline") none
        = (.ok g, draftStore ++ [("gX", g)])
        ∧ g.id = "gX" ∧ g.name = "H" ∧ g.type = .timeline
        ∧ g.status = .draft ∧ g.nodes = [] ∧ g.edges = []
        ∧ g.resources = [] ∧ ∀ p ∈ draftStore, p.1 ≠ g.id :=
  ⟨c6_createGraph.1 1 "gX" draftStore none none,
   by decide, by decide,
   c6_createGraph.2.1 1 "gX" draftStore "H" "bogus" none (by decide)
     (by decide),
   by decide,
   c6_createGraph.2.2 1 "gX" draftStore "H" (some "timeline") none .timeline
     (by decide) (Or.inr ⟨"timeline", rfl, by decide⟩) (by decide)⟩


theorem validateNode_cases (gt : GraphType) (nt : NodeType) :
    validateNodeTypeForGraphType gt nt = .ok ()
    ∨ validateNodeTypeForGraphType gt nt = .error .typeMismatch := by
  cases gt <;> cases nt <;> first
    | exact Or.inl rfl
    | exact Or.inr rfl

theorem validateEdge_cases (gt : GraphType) (et : EdgeType) :
    validateEdgeTypeForGraphType gt et = .ok ()
    ∨ validateEdgeTypeForGraphType gt et = .error .typeMismatch := by
  cases gt <;> cases et <;> first
    | exact Or.inl rfl
    | exact Or.inr rfl

/-- C1 (amended): on an archived graph, `addNode` (when the node kind is
allowed for the graph kind), `updateNode`, `deleteNode`, `addEdge` (when
the edge kind is allowed), `updateEdge`, `deleteEdge`, `addResource` and
`publishGraph` all fail with `ImmutableState` and leave the registry
unchanged.  `updateResource` and `deleteResource` are NOT covered: the
source performs no archived-status check in them; and when the requested
kind is disallowed, `addNode`/`addEdge` report `TypeMismatch` instead,
because kind validation runs before the archived check. -/
theorem c1_archived_blocks_mutations (s : Store) (gid : String) (g : Graph)
    (hg : mapGet s gid = some g) (ha : g.status = .archived) :
    (∀ (now : Nat) (nid : String) (nt : NodeType) (nm : String)
        (d fp : Option String) (md : Option MetaMap),
        allowedNodeType g.type nt →
        addNode now nid s gid nt nm d fp md = (.error .immutableState, s))
    ∧ (∀ (now : Nat) (nid : String) (un ud uf : Option String)
        (um : Option MetaMap),
        updateNode now s gid nid un ud uf um = (.error .immutableState, s))
    ∧ (∀ (now : Nat) (nid : String),
        deleteNode now s gid nid = (.error .immutableState, s))
    ∧ (∀ (now : Nat) (eid : String) (et : EdgeType) (src tgt : String)
        (l : Option String) (w : Option ℚ) (md : Option MetaMap),
        allowedEdgeType g.type et →
        addEdge now eid s gid et src tgt l w md
          = (.error .immutableState, s))
    ∧ (∀ (now : Nat) (eid : String) (ul : Option String) (uw : Option ℚ)
        (um : Option MetaMap),
        updateEdge now s gid eid ul uw um = (.error .immutableState, s))
    ∧ (∀ (now : Nat) (eid : String),
        deleteEdge now s gid eid = (.error .immutableState, s))
    ∧ (∀ (cfg : ServiceConfig) (now : Nat) (rid nm ty : String)
        (d : Option String),
        addResource cfg now rid s gid nm ty d = (.error .immutableState, s))
    ∧ (∀ (cfg : ServiceConfig) (now : Nat) (rid pth : String),
        publishGraph cfg now rid pth s gid = (.error .immutableState, s)) := by
  refine ⟨?_, ?_, ?_, ?_, ?_, ?_, ?_, ?_⟩
  · intro now nid nt nm d fp md hall
    unfold allowedNodeType at hall
    unfold addNode
    rw [hg]
    dsimp only
    rw [hall]
    dsimp only
    rw [if_pos ha]
  · intro now nid un ud uf um
    unfold updateNode
    rw [hg]
    dsimp only
    rw [if_pos ha]
  · intro now nid
    unfold deleteNode
    rw [hg]
    dsimp only
    rw [if_pos ha]
  · intro now eid et src tgt l w md hall
    unfold allowedEdgeType at hall
    unfold addEdge
    rw [hg]
    dsimp only
    rw [hall]
    dsimp only
    rw [if_pos ha]
  · intro now eid ul uw um
    unfold updateEdge
    rw [hg]
    dsimp only
    rw [if_pos ha]
  · intro now eid
    unfold deleteEdge
    rw [hg]
    dsimp only
    rw [if_pos ha]
  · intro cfg now rid nm ty d
    unfold addResource
    rw [hg]
    dsimp only
    rw [if_pos ha]
  · intro cfg now rid pth
    unfold publishGraph
    rw [hg]
    dsimp only
    rw [if_pos ha]

/-- C1 counterexample: the claim as stated is false — `updateResource` on
an archived graph succeeds (renaming the resource and changing the
registry), and `addNode` with a node kind disallowed for the graph reports
`TypeMismatch` rather than `ImmutableState` on an archived graph. -/
theorem c1_counterexample :
    (updateResource 5 archivedStore "g1" "r1" (some "nn") none none).1
      = .ok { resR1 with name := "nn", updatedAt := 5 }
    ∧ (updateResource 5 archivedStore "g1" "r1" (some "nn") none none).2
      ≠ archivedStore
    ∧ (addNode 5 "n9" archivedStore "g1" .event "E" none none none).1
      = .error .typeMismatch := by
  refine ⟨rfl, ?_, rfl⟩
  decide

/-- C1 witness: the amended statement at a concrete archived store. -/
theorem c1_witness :
    mapGet archivedStore "g1" = some archivedGraph
    ∧ archivedGraph.status = .archived
    ∧ updateNode 3 archivedStore "g1" "n1" none none none none
        = (.error .immutableState, archivedStore)
    ∧ publishGraph ⟨true, true⟩ 3 "r9" "p9" archivedStore "g1"
        = (.error .immutableState, archivedStore) :=
  ⟨rfl, rfl,
   (c1_archived_blocks_mutations archivedStore "g1" archivedGraph rfl
     rfl).2.1 3 "n1" none none none none,
   (c1_archived_blocks_mutations archivedStore "g1" archivedGraph rfl
     rfl).2.2.2.2.2.2.2 ⟨true, true⟩ 3 "r9" "p9"⟩


theorem addNode_ok_of_allowed {s : Store} {gid : String} {g : Graph}
    (hg : mapGet s gid = some g) (hna : g.status ≠ .archived)
    (hdup : ¬ ∃ n ∈ g.nodes, n.name = nm)
    (hv : validateNodeTypeForGraphType g.type nt = .ok ()) :
    addNode now nid s gid nt nm d fp md
      = (.ok (createNode nid nt nm d fp md now),
         mapSet s gid { g with nodes := g.nodes ++ [createNode nid nt nm d fp md now], updatedAt := now }) := by
  unfold addNode
  rw [hg]
  dsimp only
  rw [hv]
  dsimp only
  rw [if_neg hna, if_neg]
  simp only [List.any_eq_true, decide_eq_true_eq]
  exact hdup

theorem addNode_err_of_disallowed {s : Store} {gid : String} {g : Graph}
    (hg : mapGet s gid = some g)
    (hv : validateNodeTypeForGraphType g.type nt = .error .typeMismatch) :
    addNode now nid s gid nt nm d fp md = (.error .typeMismatch, s) := by
  unfold addNode
  rw [hg]
  dsimp only
  rw [hv]

theorem addEdge_ok_of_allowed {s : Store} {gid : String} {g : Graph}
    (hg : mapGet s gid = some g) (hna : g.status ≠ .archived)
    (hsrc : ∃ n ∈ g.nodes, n.id = src) (htgt : ∃ n ∈ g.nodes, n.id = tgt)
    (hdup : ¬ ∃ e ∈ g.edges, e.source = src ∧ e.target = tgt ∧ e.type = et)
    (hv : validateEdgeTypeForGraphType g.type et = .ok ()) :
    addEdge now eid s gid et src tgt l w md
      = (.ok (createEdge eid et src tgt l w md now),
         mapSet s gid { g with edges := g.edges ++ [createEdge eid et src tgt l w md now], updatedAt := now }) := by
  unfold addEdge
  rw [hg]
  dsimp only
  rw [hv]
  dsimp only
  rw [if_neg hna]
  rw [if_neg (by
    rw [not_not]
    simp only [List.any_eq_true, decide_eq_true_eq]
    exact hsrc)]
  rw [if_neg (by
    rw [not_not]
    simp only [List.any_eq_true, decide_eq_true_eq]
    exact htgt)]
  rw [if_neg (by
    simp only [List.any_eq_true, decide_eq_true_eq]
    exact hdup)]

theorem addEdge_err_of_disallowed {s : Store} {gid : String} {g : Graph}
    (hg : mapGet s gid = some g)
    (hv : validateEdgeTypeForGraphType g.type et = .error .typeMismatch) :
    addEdge now eid s gid et src tgt l w md = (.error .typeMismatch, s) := by
  unfold addEdge
  rw [hg]
  dsimp only
  rw [hv]

/-- C2: under the other `addNode` preconditions (graph present,
not archived, name fresh) `addNode` succeeds iff the node kind is in the
allow-list of the graph's kind, failing with `TypeMismatch` otherwise;
symmetrically for `addEdge` (endpoints present, triple fresh) and the
edge-kind allow-lists.  The allow-lists are exactly: `knowledge_base`
admits every kind; `topology`, `timeline`, `changelog`, `requirement` and
`ontology` admit exactly the enumerated subsets. -/
theorem c2_allowlists :
    (∀ (s : Store) (gid : String) (g : Graph) (now : Nat) (nid : String)
        (nt : NodeType) (nm : String) (d fp : Option String)
        (md : Option MetaMap),
        mapGet s gid = some g → g.status ≠ .archived →
        (¬ ∃ n ∈ g.nodes, n.name = nm) →
        ((∃ node, (addNode now nid s gid nt nm d fp md).1 = .ok node)
            ↔ allowedNodeType g.type nt)
        ∧ (¬ allowedNodeType g.type nt →
            (addNode now nid s gid nt nm d fp md).1 = .error .typeMismatch))
    ∧ (∀ (s : Store) (gid : String) (g : Graph) (now : Nat) (eid : String)
        (et : EdgeType) (src tgt : String) (l : Option String)
        (w : Option ℚ) (md : Option MetaMap),
        mapGet s gid = some g → g.status ≠ .archived →
        (∃ n ∈ g.nodes, n.id = src) → (∃ n ∈ g.nodes, n.id = tgt) →
        (¬ ∃ e ∈ g.edges, e.source = src ∧ e.target = tgt ∧ e.type = et) →
        ((∃ edge, (addEdge now eid s gid et src tgt l w md).1 = .ok edge)
            ↔ allowedEdgeType g.type et)
        ∧ (¬ allowedEdgeType g.type et →
            (addEdge now eid s gid et src tgt l w md).1
              = .error .typeMismatch))
    ∧ (∀ nt, allowedNodeType .knowledge_base nt)
    ∧ (∀ nt, allowedNodeType .topology nt ↔
        nt ∈ ([.component, .module, .service, .data, .api, .resource,
          .concept] : List NodeType))
    ∧ (∀ nt, allowedNodeType .timeline nt ↔
        nt ∈ ([.event, .decision, .iteration, .person] : List NodeType))
    ∧ (∀ nt, allowedNodeType .changelog nt ↔
        nt ∈ ([.change, .feature, .component, .iteration, .person] :
          List NodeType))
    ∧ (∀ nt, allowedNodeType .requirement nt ↔
        nt ∈ ([.requirement, .feature, .component, .iteration, .person,
          .decision] : List NodeType))
    ∧ (∀ nt, allowedNodeType .ontology nt ↔
        nt ∈ ([.concept, .resource, .data] : List NodeType))
    ∧ (∀ et, allowedEdgeType .knowledge_base et)
    ∧ (∀ et, allowedEdgeType .topology et ↔
        et ∈ ([.depends_on, .imports, .extends_, .implements, .calls,
          .references, .contains, .associated_with] : List EdgeType))
    ∧ (∀ et, allowedEdgeType .timeline et ↔
        et ∈ ([.precedes, .leads_to, .created_by, .modified_by] :
          List EdgeType))
    ∧ (∀ et, allowedEdgeType .changelog et ↔
        et ∈ ([.precedes, .transforms_to, .created_by, .modified_by,
          .part_of] : List EdgeType))
    ∧ (∀ et, allowedEdgeType .requirement et ↔
        et ∈ ([.implements_req, .depends_on, .part_of, .created_by,
          .modified_by] : List EdgeType))
    ∧ (∀ et, allowedEdgeType .ontology et ↔
        et ∈ ([.extends_, .contains, .part_of, .associated_with] :
          List EdgeType)) := by
  refine ⟨?_, ?_, ?_, ?_, ?_, ?_, ?_, ?_, ?_, ?_, ?_, ?_, ?_, ?_⟩
  · intro s gid g now nid nt nm d fp md hg hna hdup
    rcases validateNode_cases g.type nt with hv | hv
    · constructor
      · constructor
        · intro _
          exact hv
        · intro _
          exact ⟨createNode nid nt nm d fp md now, by
            rw [addNode_ok_of_allowed hg hna hdup hv]⟩
      · intro hnall
        exact absurd hv hnall
    · have hnall : ¬ allowedNodeType g.type nt := by
        unfold allowedNodeType
        rw [hv]
        intro hcon
        exact Except.noConfusion hcon
      constructor
      · constructor
        · rintro ⟨node, hnode⟩
          rw [addNode_err_of_disallowed hg hv] at hnode
          exact absurd hnode (by intro hcon; exact Except.noConfusion hcon)
        · intro hall
          exact absurd hall hnall
      · intro _
        rw [addNode_err_of_disallowed hg hv]
  · intro s gid g now eid et src tgt l w md hg hna hsrc htgt hdup
    rcases validateEdge_cases g.type et with hv | hv
    · constructor
      · constructor
        · intro _
          exact hv
        · intro _
          exact ⟨createEdge eid et src tgt l w md now, by
            rw [addEdge_ok_of_allowed hg hna hsrc htgt hdup hv]⟩
      · intro hnall
        exact absurd hv hnall
    · have hnall : ¬ allowedEdgeType g.type et := by
        unfold allowedEdgeType
        rw [hv]
        intro hcon
        exact Except.noConfusion hcon
      constructor
      · constructor
        · rintro ⟨edge, hedge⟩
          rw [addEdge_err_of_disallowed hg hv] at hedge
          exact absurd hedge (by intro hcon; exact Except.noConfusion hcon)
        · intro hall
          exact absurd hall hnall
      · intro _
        rw [addEdge_err_of_disallowed hg hv]
  · intro nt
    exact rfl
  · intro nt
    cases nt <;> simp [allowedNodeType, validateNodeTypeForGraphType]
  · intro nt
    cases nt <;> simp [allowedNodeType, validateNodeTypeForGraphType]
  · intro nt
    cases nt <;> simp [allowedNodeType, validateNodeTypeForGraphType]
  · intro nt
    cases nt <;> simp [allowedNodeType, validateNodeTypeForGraphType]
  · intro nt
    cases nt <;> simp [allowedNodeType, validateNodeTypeForGraphType]
  · intro et
    exact rfl
  · intro et
    cases et <;> simp [allowedEdgeType, validateEdgeTypeForGraphType]
  · intro et
    cases et <;> simp [allowedEdgeType, validateEdgeTypeForGraphType]
  · intro et
    cases et <;> simp [allowedEdgeType, validateEdgeTypeForGraphType]
  · intro et
    cases et <;> simp [allowedEdgeType, validateEdgeTypeForGraphType]
  · intro et
    cases et <;> simp [allowedEdgeType, validateEdgeTypeForGraphType]

/-- C2 witness: on a concrete draft topology graph, `addNode` of an
allowed kind succeeds and of a disallowed kind reports `TypeMismatch`;
likewise for `addEdge`. -/
theorem c2_witness :
    mapGet draftStore "g1" = some baseGraph
    ∧ baseGraph.status ≠ .archived
    ∧ (¬ ∃ n ∈ baseGraph.nodes, n.name = "C")
    ∧ ((∃ node, (addNode 1 "n3" draftStore "g1" .service "C" none none
          none).1 = .ok node) ↔ allowedNodeType baseGraph.type .service)
    ∧ ((addNode 1 "n3" draftStore "g1" .event "C" none none none).1
        = .error .typeMismatch)
    ∧ ((∃ edge, (addEdge 1 "e2" draftStore "g1" .imports "n2" "n1" none
          none none).1 = .ok edge)
        ↔ allowedEdgeType baseGraph.type .imports)
    ∧ ((addEdge 1 "e2" draftStore "g1" .precedes "n2" "n1" none none
          none).1 = .error .typeMismatch) :=
  ⟨rfl, by decide, by decide,
   (c2_allowlists.1 draftStore "g1" baseGraph 1 "n3" .service "C" none none
     none rfl (by decide) (by decide)).1,
   (c2_allowlists.1 draftStore "g1" baseGraph 1 "n3" .event "C" none none
     none rfl (by decide) (by decide)).2
     (by intro hcon; exact Except.noConfusion hcon),
   (c2_allowlists.2.1 draftStore "g1" baseGraph 1 "e2" .imports "n2" "n1"
     none none none rfl (by decide) (by decide) (by decide) (by decide)).1,
   (c2_allowlists.2.1 draftStore "g1" baseGraph 1 "e2" .precedes "n2" "n1"
     none none none rfl (by decide) (by decide) (by decide) (by decide)).2
     (by intro hcon; exact Except.noConfusion hcon)⟩


/-- C3: on a non-archived graph, deleting an existing non-root node
removes the (unique) node carrying that id, removes exactly the edges
whose source or target equals that id and no other edge, and leaves the
remaining nodes and the resources list untouched. -/
theorem c3_deleteNode_cascade (s : Store) (gid nid : String) (g : Graph)
    (now : Nat) (hg : mapGet s gid = some g) (hna : g.status ≠ .archived)
    (hmem : ∃ n ∈ g.nodes, n.id = nid) (hroot : g.rootNodeId ≠ some nid)
    (hnd : (g.nodes.map Node.id).Nodup) :
    ∃ g', deleteNode now s gid nid = (.ok (), mapSet s gid g')
      ∧ (∀ e, e ∈ g'.edges ↔
          (e ∈ g.edges ∧ e.source ≠ nid ∧ e.target ≠ nid))
      ∧ (∀ n ∈ g'.nodes, n.id ≠ nid)
      ∧ (∀ n ∈ g.nodes, n.id ≠ nid → n ∈ g'.nodes)
      ∧ (∀ n ∈ g'.nodes, n ∈ g.nodes)
      ∧ g'.resources = g.resources := by
  refine ⟨{ g with
      nodes := eraseFirst (fun n => n.id = nid) g.nodes,
      edges := g.edges.filter (fun e => e.source ≠ nid ∧ e.target ≠ nid),
      updatedAt := now }, ?_, ?_, ?_, ?_, ?_, rfl⟩
  · unfold deleteNode
    rw [hg]
    dsimp only
    rw [if_neg hna]
    rw [if_neg (by
      rw [not_not]
      simp only [List.any_eq_true, decide_eq_true_eq]
      exact hmem)]
    rw [if_neg hroot]
  · intro e
    simp only [List.mem_filter, decide_eq_true_eq]
  · intro n hn
    exact key_ne_of_mem_eraseFirst hnd n hn
  · intro n hn hne
    refine mem_eraseFirst_of_mem hn ?_
    simp only [decide_eq_false_iff_not]
    exact hne
  · intro n hn
    exact (eraseFirst_sublist _ _).subset hn

/-- C3 witness: deleting node `n2` of the concrete draft graph. -/
theorem c3_witness :
    mapGet draftStore "g1" = some baseGraph
    ∧ baseGraph.status ≠ .archived
    ∧ (∃ n ∈ baseGraph.nodes, n.id = "n2")
    ∧ baseGraph.rootNodeId ≠ some "n2"
    ∧ (baseGraph.nodes.map Node.id).Nodup
    ∧ ∃ g', deleteNode 7 draftStore "g1" "n2" = (.ok (), mapSet draftStore "g1" g')
      ∧ (∀ e, e ∈ g'.edges ↔
          (e ∈ baseGraph.edges ∧ e.source ≠ "n2" ∧ e.target ≠ "n2"))
      ∧ (∀ n ∈ g'.nodes, n.id ≠ "n2")
      ∧ (∀ n ∈ baseGraph.nodes, n.id ≠ "n2" → n ∈ g'.nodes)
      ∧ (∀ n ∈ g'.nodes, n ∈ baseGraph.nodes)
      ∧ g'.resources = baseGraph.resources :=
  ⟨rfl, by decide, by decide, by decide, by decide,
   c3_deleteNode_cascade draftStore "g1" "n2" baseGraph 7 rfl (by decide)
     (by decide) (by decide) (by decide)⟩

theorem deleteResource_node_fields (now : Nat) (resourceId : String)
    (n : Node) :
    (match n.resources with
      | some rs =>
          if rs.contains resourceId then
            { n with resources := some (rs.filter (fun i => i ≠ resourceId))
                     updatedAt := now }
          else n
      | none => n).id = n.id
    ∧ (match n.resources with
        | some rs =>
            if rs.contains resourceId then
              { n with
                  resources := some (rs.filter (fun i => i ≠ resourceId))
                  updatedAt := now }
            else n
        | none => n).type = n.type
    ∧ (match n.resources with
        | some rs =>
            if rs.contains resourceId then
              { n with
                  resources := some (rs.filter (fun i => i ≠ resourceId))
                  updatedAt := now }
            else n
        | none => n).name = n.name := by
  rcases hr : n.resources with _ | rs
  · exact ⟨rfl, rfl, rfl⟩
  · dsimp only
    split_ifs <;> exact ⟨rfl, rfl, rfl⟩

/-- C5: after a successful `deleteResource` the resource id no longer
appears in any node's reference list, the resource is gone from the
graph's resources, while the edges, all nodes (with their identity
preserved) and the other resources remain. -/
theorem c5_deleteResource_purge (s : Store) (gid rid : String) (g : Graph)
    (now : Nat) (hg : mapGet s gid = some g)
    (hmem : ∃ r ∈ g.resources, r.id = rid)
    (hnd : (g.resources.map Resource.id).Nodup) :
    ∃ g', deleteResource now s gid rid = (.ok (), mapSet s gid g')
      ∧ (∀ n ∈ g'.nodes, ∀ rs, n.resources = some rs → rid ∉ rs)
      ∧ (∀ r ∈ g'.resources, r.id ≠ rid)
      ∧ (∀ r ∈ g.resources, r.id ≠ rid → r ∈ g'.resources)
      ∧ g'.edges = g.edges
      ∧ (∀ n ∈ g.nodes, ∃ n' ∈ g'.nodes,
          n'.id = n.id ∧ n'.type = n.type ∧ n'.name = n.name) := by
  refine ⟨{ g with
      nodes := g.nodes.map (fun n =>
        match n.resources with
        | some rs =>
            if rs.contains rid then
              { n with resources := some (rs.filter (fun i => i ≠ rid))
                       updatedAt := now }
            else n
        | none => n),
      resources := eraseFirst (fun r => r.id = rid) g.resources,
      updatedAt := now }, ?_, ?_, ?_, ?_, rfl, ?_⟩
  · unfold deleteResource
    rw [hg]
    dsimp only
    rw [if_neg (by
      rw [not_not]
      simp only [List.any_eq_true, decide_eq_true_eq]
      exact hmem)]
  · intro n' hn' rs hrs
    obtain ⟨n0, hn0, rfl⟩ := List.mem_map.mp hn'
    rcases hres : n0.resources with _ | rs0
    · rw [hres] at hrs
      dsimp only at hrs
      rw [hres] at hrs
      exact Option.noConfusion hrs
    · rw [hres] at hrs
      dsimp only at hrs
      by_cases hc : rs0.contains rid
      · rw [if_pos hc] at hrs
        dsimp only at hrs
        obtain rfl := Option.some.inj hrs
        intro hin
        have := List.of_mem_filter hin
        simp only [decide_eq_true_eq] at this
        exact this rfl
      · rw [if_neg hc] at hrs
        rw [hres] at hrs
        obtain rfl := Option.some.inj hrs
        intro hin
        exact hc (List.elem_eq_true_of_mem hin)
  · intro r hr
    exact key_ne_of_mem_eraseFirst hnd r hr
  · intro r hr hne
    refine mem_eraseFirst_of_mem hr ?_
    simp only [decide_eq_false_iff_not]
    exact hne
  · intro n hn
    refine ⟨_, List.mem_map_of_mem _ hn, ?_⟩
    exact deleteResource_node_fields now rid n

/-- C5 witness: deleting resource `r1` of the concrete draft graph, whose
id is referenced by node `n1`. -/
theorem c5_witness :
    mapGet draftStore "g1" = some baseGraph
    ∧ (∃ r ∈ baseGraph.resources, r.id = "r1")
    ∧ (baseGraph.resources.map Resource.id).Nodup
    ∧ ∃ g', deleteResource 9 draftStore "g1" "r1"
        = (.ok (), mapSet draftStore "g1" g')
      ∧ (∀ n ∈ g'.nodes, ∀ rs, n.resources = some rs → "r1" ∉ rs)
      ∧ (∀ r ∈ g'.resources, r.id ≠ "r1")
      ∧ (∀ r ∈ baseGraph.resources, r.id ≠ "r1" → r ∈ g'.resources)
      ∧ g'.edges = baseGraph.edges
      ∧ (∀ n ∈ baseGraph.nodes, ∃ n' ∈ g'.nodes,
          n'.id = n.id ∧ n'.type = n.type ∧ n'.name = n.name) :=
  ⟨rfl, by decide, by decide,
   c5_deleteResource_purge draftStore "g1" "r1" baseGraph 9 rfl (by decide)
     (by decide)⟩


/-- C10: calling `publishGraph` on an already-published graph is accepted
again: the status stays `published`, `publishedAt` and `updatedAt` are
overwritten with the new time, and (with SVG generation and a file service
configured) one more SVG resource is appended to the graph's resources on
each call. -/
theorem c10_republish (cfg : ServiceConfig) (s : Store) (gid : String)
    (g : Graph) (now : Nat) (rid pth : String)
    (hg : mapGet s gid = some g) (hp : g.status = .published)
    (hsvg : cfg.generateSvg = true) (hfs : cfg.hasFileService = true) :
    ∃ g', publishGraph cfg now rid pth s gid = (.ok g', mapSet s gid g')
      ∧ g'.status = .published ∧ g'.publishedAt = some now
      ∧ g'.updatedAt = now
      ∧ g'.resources = g.resources
          ++ [createResource rid (g.name ++ " 知识图谱") "svg" pth
                (some "自动生成的知识图谱可视化图") now] := by
  refine ⟨{ g with
              status := .published, publishedAt := some now,
              updatedAt := now,
              resources := g.resources
                ++ [createResource rid (g.name ++ " 知识图谱") "svg" pth
                      (some "自动生成的知识图谱可视化图") now] },
    ?_, rfl, rfl, rfl, rfl⟩
  unfold publishGraph
  rw [hg]
  dsimp only
  rw [if_neg (by rw [hp]; intro hcon; exact GraphStatus.noConfusion hcon)]
  rw [if_pos (by rw [hsvg, hfs]; rfl)]

/-- C10 witness: re-publishing the concrete already-published graph. -/
theorem c10_witness :
    mapGet publishedStore "g1" = some publishedGraph
    ∧ publishedGraph.status = .published
    ∧ ∃ g', publishGraph ⟨true, true⟩ 11 "rS" "resources/svg/s.svg"
        publishedStore "g1" = (.ok g', mapSet publishedStore "g1" g')
      ∧ g'.status = .published ∧ g'.publishedAt = some 11
      ∧ g'.updatedAt = 11
      ∧ g'.resources = publishedGraph.resources
          ++ [createResource "rS" (publishedGraph.name ++ " 知识图谱")
                "svg" "resources/svg/s.svg"
                (some "自动生成的知识图谱可视化图") 11] :=
  ⟨rfl, rfl,
   c10_republish ⟨true, true⟩ publishedStore "g1" publishedGraph 11 "rS"
     "resources/svg/s.svg" rfl rfl rfl rfl⟩

/-- C4: the edge invariants (both endpoints of every edge are nodes of the
same graph, no two edges share a (source, target, kind) triple) hold in
every registry reachable by store operations from the empty registry and
are preserved by every single operation — in particular by `deleteNode`'s
cascade; `addEdge` fails with `NotFound` when an endpoint is missing and
with `DuplicateRelationship` when the triple already exists. -/
theorem c4_edge_invariants :
    (∀ ops : List StoreOp, StoreWF (runOps ops []))
    ∧ (∀ (s : Store) (op : StoreOp), StoreWF s → StoreWF (applyOp op s))
    ∧ (∀ (s : Store) (gid : String) (g : Graph) (now : Nat) (eid : String)
        (et : EdgeType) (src tgt : String) (l : Option String)
        (w : Option ℚ) (md : Option MetaMap),
        mapGet s gid = some g → allowedEdgeType g.type et →
        g.status ≠ .archived → (¬ ∃ n ∈ g.nodes, n.id = src) →
        addEdge now eid s gid et src tgt l w md = (.error .notFound, s))
    ∧ (∀ (s : Store) (gid : String) (g : Graph) (now : Nat) (eid : String)
        (et : EdgeType) (src tgt : String) (l : Option String)
        (w : Option ℚ) (md : Option MetaMap),
        mapGet s gid = some g → allowedEdgeType g.type et →
        g.status ≠ .archived → (∃ n ∈ g.nodes, n.id = src) →
        (¬ ∃ n ∈ g.nodes, n.id = tgt) →
        addEdge now eid s gid et src tgt l w md = (.error .notFound, s))
    ∧ (∀ (s : Store) (gid : String) (g : Graph) (now : Nat) (eid : String)
        (et : EdgeType) (src tgt : String) (l : Option String)
        (w : Option ℚ) (md : Option MetaMap),
        mapGet s gid = some g → allowedEdgeType g.type et →
        g.status ≠ .archived → (∃ n ∈ g.nodes, n.id = src) →
        (∃ n ∈ g.nodes, n.id = tgt) →
        (∃ e ∈ g.edges, e.source = src ∧ e.target = tgt ∧ e.type = et) →
        addEdge now eid s gid et src tgt l w md
          = (.error .duplicateRelationship, s)) := by
  refine ⟨?_, ?_, ?_, ?_, ?_⟩
  · intro ops
    exact storeWF_runOps ops (fun p hp => absurd hp (List.not_mem_nil p))
  · intro s op hwf
    exact storeWF_applyOp op hwf
  · intro s gid g now eid et src tgt l w md hg hall hna hnsrc
    unfold allowedEdgeType at hall
    unfold addEdge
    rw [hg]
    dsimp only
    rw [hall]
    dsimp only
    rw [if_neg hna]
    rw [if_pos (by
      simp only [List.any_eq_true, decide_eq_true_eq]
      exact hnsrc)]
  · intro s gid g now eid et src tgt l w md hg hall hna hsrc hntgt
    unfold allowedEdgeType at hall
    unfold addEdge
    rw [hg]
    dsimp only
    rw [hall]
    dsimp only
    rw [if_neg hna]
    rw [if_neg (by
      rw [not_not]
      simp only [List.any_eq_true, decide_eq_true_eq]
      exact hsrc)]
    rw [if_pos (by
      simp only [List.any_eq_true, decide_eq_true_eq]
      exact hntgt)]
  · intro s gid g now eid et src tgt l w md hg hall hna hsrc htgt hdup
    unfold allowedEdgeType at hall
    unfold addEdge
    rw [hg]
    dsimp only
    rw [hall]
    dsimp only
    rw [if_neg hna]
    rw [if_neg (by
      rw [not_not]
      simp only [List.any_eq_true, decide_eq_true_eq]
      exact hsrc)]
    rw [if_neg (by
      rw [not_not]
      simp only [List.any_eq_true, decide_eq_true_eq]
      exact htgt)]
    rw [if_pos (by
      simp only [List.any_eq_true, decide_eq_true_eq]
      exact hdup)]

/-- C4 witness: `addEdge` failures at concrete inputs on the draft graph
(whose only edge is `depends_on n1 → n2`). -/
theorem c4_witness :
    mapGet draftStore "g1" = some baseGraph
    ∧ addEdge 1 "e9" draftStore "g1" .depends_on "nX" "n1" none none none
        = (.error .notFound, draftStore)
    ∧ addEdge 1 "e9" draftStore "g1" .depends_on "n1" "nX" none none none
        = (.error .notFound, draftStore)
    ∧ addEdge 1 "e9" draftStore "g1" .depends_on "n1" "n2" none none none
        = (.error .duplicateRelationship, draftStore) :=
  ⟨rfl,
   c4_edge_invariants.2.2.1 draftStore "g1" baseGraph 1 "e9" .depends_on
     "nX" "n1" none none none rfl rfl (by decide) (by decide),
   c4_edge_invariants.2.2.2.1 draftStore "g1" baseGraph 1 "e9" .depends_on
     "n1" "nX" none none none rfl rfl (by decide) (by decide) (by decide),
   c4_edge_invariants.2.2.2.2 draftStore "g1" baseGraph 1 "e9" .depends_on
     "n1" "n2" none none none rfl rfl (by decide) (by decide) (by decide)
     (by decide)⟩

/-- C8: for a nonempty node list, when twice the node radius fits in both
canvas dimensions, every position in the returned layout map lies fully
inside the canvas (`nodeRadius ≤ x ≤ width - nodeRadius` and likewise for
y); for an empty node list the returned position map is empty. -/
theorem c8_layout_bounds (ops : LayoutOps) (nodes : List Node)
    (edges : List Edge) (width height nodeRadius : ℚ)
    (hne : nodes ≠ []) (hw : 2 * nodeRadius ≤ width)
    (hh : 2 * nodeRadius ≤ height) :
    (∀ k p, calculateNodePositions ops nodes edges width height nodeRadius k
        = some p → InsideCanvas nodeRadius width height p)
    ∧ (∀ k, calculateNodePositions ops [] edges width height nodeRadius k
        = none) := by
  constructor
  · intro k p hk
    have hw' : nodeRadius ≤ width - nodeRadius := by linarith
    have hh' : nodeRadius ≤ height - nodeRadius := by linarith
    unfold calculateNodePositions calculateNodePositionsIter at hk
    rw [if_neg (by simpa using hne)] at hk
    rw [show (50 : ℕ) = 49 + 1 from rfl, Function.iterate_succ_apply']
      at hk
    rcases applyForces_bound hw' hh' nodes _ k p hk with hin | ⟨hprev, hall⟩
    · exact hin
    · obtain ⟨nd, hnd, hid⟩ := calcIter_keys 49 k p hprev
      exact absurd hid (hall nd hnd)
  · intro k
    rfl

/-- C8 witness: concrete instantiation with one node on the default
1200 × 800 canvas with node radius 20. -/
theorem c8_witness :
    ([nodeA] : List Node) ≠ []
    ∧ 2 * (20 : ℚ) ≤ 1200 ∧ 2 * (20 : ℚ) ≤ 800
    ∧ ((∀ k p, calculateNodePositions trivialLayoutOps [nodeA] [] 1200 800
          20 k = some p → InsideCanvas 20 1200 800 p)
      ∧ (∀ k, calculateNodePositions trivialLayoutOps [] [] 1200 800 20 k
          = none)) :=
  ⟨by decide, by norm_num, by norm_num,
   c8_layout_bounds trivialLayoutOps [nodeA] [] 1200 800 20 (by decide)
     (by norm_num) (by norm_num)⟩

end KG
